/-
Verification of the move2kube transformer core against its specification.

This file gives a shallow embedding of the relevant Go functions:
  * artifact merging (`mergeArtifact`, `mergeArtifacts`, `mergeConfigs`,
    `mergePathSliceMaps`, `updatedArtifacts` from the transformer package),
  * transformer registry filtering (`getFilteredTransformers`,
    `getTransformerConfig`, `postProcessArtifacts`),
  * the Starlark sandbox filesystem builtins and the `query` builtin
    (from the external transformer package),
  * slice helpers (`MergeSlices`, `AppendIfNotPresent`, `IsPresent`,
    `JoinQASubKeys` from the common package).

Go maps are mutable reference values; mergeConfigs and mergePathSliceMaps
mutate their first argument in place.  To make this observable the embedding
threads an explicit `Store` (a heap of config maps and path maps, addressed
by numeric references) through every map-mutating function.  Go interface
values are embedded as the inductive `Value`.

External packages (k8s label selectors, the deepcopy package, the YAML
reader, the OS filesystem, the starlark interpreter machinery) are not part
of the repository sources; they are modelled from the spec, as abstract
oracle parameters, or as explicitly spec-modelled definitions, and each such
definition says so in its doc comment.
-/
import Mathlib

namespace Move2Kube

mutual

/-- Embedding of Go interface values as they occur in artifact configs:
JSON/YAML-like trees of scalars, sequences and string-keyed maps. -/
inductive Value : Type where
  | null : Value
  | str : String → Value
  | int : Int → Value
  | bool : Bool → Value
  | list : ValueList → Value
  | map : ValueMap → Value
deriving DecidableEq

/-- A sequence of values (Go slice of interface values). -/
inductive ValueList : Type where
  | nil : ValueList
  | cons : Value → ValueList → ValueList
deriving DecidableEq

/-- A string-keyed map of values (Go map of string to interface value),
kept as an entry sequence. -/
inductive ValueMap : Type where
  | nil : ValueMap
  | cons : String → Value → ValueMap → ValueMap
deriving DecidableEq

end

/-- Membership of a value in a value sequence, by equality. -/
def vlMem : ValueList → Value → Bool
  | .nil, _ => false
  | .cons y tl, x => (y = x : Bool) || vlMem tl x

/-- Append one value at the end of a value sequence. -/
def vlSnoc : ValueList → Value → ValueList
  | .nil, x => .cons x .nil
  | .cons y tl, x => .cons y (vlSnoc tl x)

/-- Modelled from the spec: sequence merge of the external deepcopy package —
concatenate with de-duplication (mirrors `common.MergeSlices`). -/
def vlAppendIfNotPresent : ValueList → ValueList → ValueList
  | l1, .nil => l1
  | l1, .cons x tl => vlAppendIfNotPresent (if vlMem l1 x then l1 else vlSnoc l1 x) tl

/-- Map lookup on an entry sequence (first binding wins, as keys are unique
in any map produced by Go). -/
def vmLookup : ValueMap → String → Option Value
  | .nil, _ => none
  | .cons k1 v1 tl, k => if k1 = k then some v1 else vmLookup tl k

/-- Map update-or-append; embeds Go map assignment. -/
def vmInsert : ValueMap → String → Value → ValueMap
  | .nil, k, v => .cons k v .nil
  | .cons k1 v1 tl, k, v =>
    if k1 = k then .cons k v tl else .cons k1 v1 (vmInsert tl k v)

/-- Whether a key occurs in a map entry sequence. -/
def vmHasKey : ValueMap → String → Bool
  | .nil, _ => false
  | .cons k1 _ tl, k => (k1 = k : Bool) || vmHasKey tl k

/-- Entry membership in a map entry sequence. -/
def vmEntryMem : ValueMap → String → Value → Prop
  | .nil, _, _ => False
  | .cons k1 v1 tl, k, v => (k1 = k ∧ v1 = v) ∨ vmEntryMem tl k v

/-- Keys of a map entry sequence are pairwise distinct. -/
def vmKeysNodup : ValueMap → Bool
  | .nil => true
  | .cons k _ tl => !(vmHasKey tl k) && vmKeysNodup tl

mutual

/-- Modelled from the spec: the external `deepcopy.Merge` generic config
merge — maps union recursively, scalars right wins, sequences concatenate
with de-duplication. -/
def deepMerge : Value → Value → Value
  | .map m1, .map m2 => .map (deepMergeMap m1 m2)
  | .list l1, .list l2 => .list (vlAppendIfNotPresent l1 l2)
  | _, v2 => v2

/-- Modelled from the spec: key-wise recursive union of two string-keyed
maps, the right-hand entries merged into the left. -/
def deepMergeMap : ValueMap → ValueMap → ValueMap
  | m1, .nil => m1
  | m1, .cons k v2 tl =>
    match vmLookup m1 k with
    | some v1 => deepMergeMap (vmInsert m1 k (deepMerge v1 v2)) tl
    | none => deepMergeMap (vmInsert m1 k v2) tl

end

mutual

/-- Well-formed values: every (possibly nested) map has pairwise-distinct
keys, as Go maps and YAML decoding guarantee. -/
def valueWF : Value → Bool
  | .null | .str _ | .int _ | .bool _ => true
  | .list l => valueListWF l
  | .map m => vmKeysNodup m && valueMapWF m

/-- Well-formedness of every element of a value sequence. -/
def valueListWF : ValueList → Bool
  | .nil => true
  | .cons x tl => valueWF x && valueListWF tl

/-- Well-formedness of every value of a map entry sequence. -/
def valueMapWF : ValueMap → Bool
  | .nil => true
  | .cons _ v tl => valueWF v && valueMapWF tl

end

theorem vlAppendIfNotPresent_of_subset :
    ∀ (l2 l1 : ValueList), (∀ x, vlMem l2 x = true → vlMem l1 x = true) →
      vlAppendIfNotPresent l1 l2 = l1
  | .nil, _, _ => rfl
  | .cons x tl, l1, h => by
    have hx : vlMem l1 x = true := h x (by simp [vlMem])
    simp only [vlAppendIfNotPresent, hx, if_pos]
    exact vlAppendIfNotPresent_of_subset tl l1 (fun y hy => h y (by simp [vlMem, hy]))

theorem vlAppendIfNotPresent_self (l : ValueList) : vlAppendIfNotPresent l l = l :=
  vlAppendIfNotPresent_of_subset l l (fun _ h => h)

theorem vmInsert_lookup_self :
    ∀ (m : ValueMap) (k : String) (v : Value),
      vmLookup m k = some v → vmInsert m k v = m
  | .nil, k, v, h => by simp [vmLookup] at h
  | .cons k1 v1 tl, k, v, h => by
    by_cases hk : k1 = k
    · subst hk
      simp [vmLookup] at h
      simp [vmInsert, h]
    · simp [vmLookup, hk] at h
      simp [vmInsert, hk, vmInsert_lookup_self tl k v h]

theorem vmEntryMem_hasKey :
    ∀ (m : ValueMap) (k : String) (v : Value),
      vmEntryMem m k v → vmHasKey m k = true
  | .nil, _, _, h => absurd h (by simp [vmEntryMem])
  | .cons k1 v1 tl, k, v, h => by
    rcases h with ⟨hk, _⟩ | h
    · simp [vmHasKey, hk]
    · simp [vmHasKey, vmEntryMem_hasKey tl k v h]

theorem vmLookup_of_nodup_mem :
    ∀ (m : ValueMap) (k : String) (v : Value),
      vmKeysNodup m = true → vmEntryMem m k v → vmLookup m k = some v
  | .nil, _, _, _, hmem => absurd hmem (by simp [vmEntryMem])
  | .cons k1 v1 tl, k, v, hnd, hmem => by
    simp only [vmKeysNodup, Bool.and_eq_true, Bool.not_eq_true'] at hnd
    rcases hmem with ⟨hk, hv⟩ | hmem
    · simp [vmLookup, hk, hv]
    · have hk : k1 ≠ k := by
        intro he
        have hhk : vmHasKey tl k = true := vmEntryMem_hasKey tl k v hmem
        rw [← he, hnd.1] at hhk
        exact Bool.false_ne_true hhk
      simp [vmLookup, hk, vmLookup_of_nodup_mem tl k v hnd.2 hmem]

theorem vmEntryMem_valueWF :
    ∀ (m : ValueMap) (k : String) (v : Value),
      valueMapWF m = true → vmEntryMem m k v → valueWF v = true
  | .nil, _, _, _, hmem => absurd hmem (by simp [vmEntryMem])
  | .cons k1 v1 tl, k, v, hwf, hmem => by
    simp only [valueMapWF, Bool.and_eq_true] at hwf
    rcases hmem with ⟨_, hv⟩ | hmem
    · exact hv ▸ hwf.1
    · exact vmEntryMem_valueWF tl k v hwf.2 hmem

theorem vmEntryMem_sizeOf_lt :
    ∀ (m : ValueMap) (k : String) (v : Value),
      vmEntryMem m k v → sizeOf v < sizeOf m
  | .nil, _, _, hmem => absurd hmem (by simp [vmEntryMem])
  | .cons k1 v1 tl, k, v, hmem => by
    rcases hmem with ⟨_, hv⟩ | hmem
    · subst hv; simp; omega
    · have := vmEntryMem_sizeOf_lt tl k v hmem
      simp
      omega

theorem deepMergeMap_self_of (m : ValueMap) :
    ∀ l2 : ValueMap,
      (∀ k v, vmEntryMem l2 k v → vmLookup m k = some v ∧ deepMerge v v = v) →
      deepMergeMap m l2 = m
  | .nil, _ => rfl
  | .cons k v2 tl, h => by
    have hh := h k v2 (Or.inl ⟨rfl, rfl⟩)
    simp only [deepMergeMap, hh.1]
    rw [hh.2, vmInsert_lookup_self m k v2 hh.1]
    exact deepMergeMap_self_of m tl (fun k' v' hm => h k' v' (Or.inr hm))

/-- Idempotence of the generic deep merge on well-formed values. -/
theorem deepMerge_self : ∀ (v : Value), valueWF v = true → deepMerge v v = v
  | .null, _ => rfl
  | .str _, _ => rfl
  | .int _, _ => rfl
  | .bool _, _ => rfl
  | .list l, _ => by
    simp only [deepMerge]
    rw [vlAppendIfNotPresent_self]
  | .map m, h => by
    simp only [valueWF, Bool.and_eq_true] at h
    simp only [deepMerge]
    rw [deepMergeMap_self_of m m (fun k v hmem =>
      ⟨vmLookup_of_nodup_mem m k v h.1 hmem,
       deepMerge_self v (vmEntryMem_valueWF m k v h.2 hmem)⟩)]
termination_by v => sizeOf v
decreasing_by
  have := vmEntryMem_sizeOf_lt m k v hmem
  simp
  omega

/-- Association-list lookup; embeds Go map indexing. -/
def lookupA {α : Type} : List (String × α) → String → Option α
  | [], _ => none
  | (k1, v1) :: rest, k => if k1 = k then some v1 else lookupA rest k

/-- Association-list update-or-append; embeds Go map assignment. -/
def insertA {α : Type} : List (String × α) → String → α → List (String × α)
  | [], k, v => [(k, v)]
  | (k1, v1) :: rest, k, v =>
    if k1 = k then (k, v) :: rest else (k1, v1) :: insertA rest k v

/-- Embeds `common.IsPresent`: membership test by equality. -/
def isPresent {α : Type} [DecidableEq α] (l : List α) (x : α) : Bool :=
  l.any (fun y => y = x)

/-- Embeds `common.AppendIfNotPresent`: append each value not yet present. -/
def appendIfNotPresent {α : Type} [DecidableEq α] (l : List α) (values : List α) : List α :=
  values.foldl (fun acc v => if isPresent acc v then acc else acc ++ [v]) l

/-- Embeds `common.MergeSlices` (src/common/utils.go): merge two slices,
deduplicating the appended elements. -/
def mergeSlices {α : Type} [DecidableEq α] (slice1 slice2 : List α) : List α :=
  appendIfNotPresent slice1 slice2

theorem isPresent_eq_true {α : Type} [DecidableEq α] {l : List α} {x : α} :
    isPresent l x = true ↔ x ∈ l := by
  simp only [isPresent, List.any_eq_true, decide_eq_true_eq]
  constructor
  · rintro ⟨y, hy, rfl⟩
    exact hy
  · intro h
    exact ⟨x, h, rfl⟩

theorem appendIfNotPresent_of_subset {α : Type} [DecidableEq α] {l2 l1 : List α}
    (h : ∀ x ∈ l2, x ∈ l1) : appendIfNotPresent l1 l2 = l1 := by
  induction l2 generalizing l1 with
  | nil => rfl
  | cons x rest ih =>
    have hx : isPresent l1 x = true := isPresent_eq_true.mpr (h x (by simp))
    simp only [appendIfNotPresent, List.foldl_cons, hx, if_pos]
    exact ih (fun y hy => h y (by simp [hy]))

theorem mergeSlices_self {α : Type} [DecidableEq α] (l : List α) :
    mergeSlices l l = l :=
  appendIfNotPresent_of_subset (fun _ h => h)

theorem mem_appendIfNotPresent {α : Type} [DecidableEq α] (l2 l1 : List α) (x : α) :
    x ∈ appendIfNotPresent l1 l2 ↔ x ∈ l1 ∨ x ∈ l2 := by
  induction l2 generalizing l1 with
  | nil => simp [appendIfNotPresent]
  | cons y rest ih =>
    simp only [appendIfNotPresent, List.foldl_cons]
    by_cases hy : isPresent l1 y = true
    · rw [if_pos hy]
      have := ih l1
      simp only [appendIfNotPresent] at this
      rw [this]
      have hmem : y ∈ l1 := isPresent_eq_true.mp hy
      constructor
      · rintro (h | h)
        · exact Or.inl h
        · exact Or.inr (by simp [h])
      · rintro (h | h)
        · exact Or.inl h
        · rcases List.mem_cons.mp h with h | h
          · exact Or.inl (h ▸ hmem)
          · exact Or.inr h
    · rw [if_neg hy]
      have := ih (l1 ++ [y])
      simp only [appendIfNotPresent] at this
      rw [this]
      constructor
      · rintro (h | h)
        · rcases List.mem_append.mp h with h | h
          · exact Or.inl h
          · exact Or.inr (List.mem_cons.mpr (Or.inl (List.mem_singleton.mp h)))
        · exact Or.inr (List.mem_cons.mpr (Or.inr h))
      · rintro (h | h)
        · exact Or.inl (List.mem_append.mpr (Or.inl h))
        · rcases List.mem_cons.mp h with h | h
          · exact Or.inl (List.mem_append.mpr (Or.inr (by simp [h])))
          · exact Or.inr h

theorem mem_mergeSlices {α : Type} [DecidableEq α] (l1 l2 : List α) (x : α) :
    x ∈ mergeSlices l1 l2 ↔ x ∈ l1 ∨ x ∈ l2 :=
  mem_appendIfNotPresent l2 l1 x

theorem lookupA_insertA_self {α : Type} :
    ∀ (l : List (String × α)) (k : String) (v : α),
      lookupA (insertA l k v) k = some v
  | [], k, v => by simp [insertA, lookupA]
  | (k1, v1) :: rest, k, v => by
    by_cases hk : k1 = k
    · simp [insertA, hk, lookupA]
    · simp [insertA, hk, lookupA, lookupA_insertA_self rest k v]

theorem lookupA_insertA_ne {α : Type} :
    ∀ (l : List (String × α)) (k k' : String) (v : α), k ≠ k' →
      lookupA (insertA l k v) k' = lookupA l k'
  | [], k, k', v, hne => by simp [insertA, lookupA, hne]
  | (k1, v1) :: rest, k, k', v, hne => by
    by_cases hk : k1 = k
    · subst hk
      simp [insertA, lookupA, hne]
    · simp [insertA, hk, lookupA, lookupA_insertA_ne rest k k' v hne]

theorem insertA_lookupA_self {α : Type} :
    ∀ (l : List (String × α)) (k : String) (v : α),
      lookupA l k = some v → insertA l k v = l
  | [], k, v, h => by simp [lookupA] at h
  | (k1, v1) :: rest, k, v, h => by
    by_cases hk : k1 = k
    · subst hk
      simp [lookupA] at h
      simp [insertA, h]
    · simp [lookupA, hk] at h
      simp [insertA, hk, insertA_lookupA_self rest k v h]

theorem lookupA_of_nodup_mem {α : Type} {l : List (String × α)} {k : String} {v : α}
    (hnd : (l.map Prod.fst).Nodup) (hmem : (k, v) ∈ l) : lookupA l k = some v := by
  induction l with
  | nil => simp at hmem
  | cons kv rest ih =>
    obtain ⟨k1, v1⟩ := kv
    simp only [List.map_cons, List.nodup_cons] at hnd
    rcases List.mem_cons.mp hmem with h | h
    · rw [Prod.mk.injEq] at h
      simp [lookupA, h.1.symm, h.2]
    · have hk : k1 ≠ k := by
        intro he
        exact hnd.1 (he ▸ (List.mem_map.mpr ⟨(k, v), h, rfl⟩))
      simp [lookupA, hk, ih hnd.2 h]

theorem set_self_of_getElem? {α : Type} :
    ∀ (l : List α) (r : Nat) (x : α), l[r]? = some x → l.set r x = l
  | [], r, x, h => by simp at h
  | y :: rest, 0, x, h => by
    simp at h
    simp [List.set, h]
  | y :: rest, r + 1, x, h => by
    simp at h
    simp [List.set, set_self_of_getElem? rest r x h]

/-! ## The artifact model and the in-place merge operations

`transformertypes.Artifact` is `{Name, Type, Paths, Configs}` where `Paths`
and `Configs` are Go maps, i.e. mutable references.  The embedding keeps the
referenced map contents in an explicit `Store` and threads it through every
function of src/unnamed/part_001 that can mutate a map. -/

/-- A transformer artifact: name, type, and references into the store for
its `Paths` and `Configs` maps (`none` is the Go nil map). -/
structure Artifact where
  name : String
  type : String
  paths : Option Nat
  configs : Option Nat
deriving DecidableEq

/-- Content of one Go `map[PathType][]string` value. -/
abbrev PathMapContent : Type := List (String × List String)

/-- The heap of Go map values reachable from artifacts: config maps and
path maps, addressed by index. -/
structure Store where
  configMaps : List ValueMap
  pathMaps : List PathMapContent
deriving DecidableEq

/-- Dereference a config map (out-of-range defaults to the empty map). -/
def getConfigMap (s : Store) (r : Nat) : ValueMap :=
  (s.configMaps[r]?).getD .nil

/-- Overwrite a config map in place. -/
def setConfigMap (s : Store) (r : Nat) (m : ValueMap) : Store :=
  { s with configMaps := s.configMaps.set r m }

/-- Dereference a path map (out-of-range defaults to the empty map). -/
def getPathMap (s : Store) (r : Nat) : PathMapContent :=
  (s.pathMaps[r]?).getD []

/-- Overwrite a path map in place. -/
def setPathMap (s : Store) (r : Nat) (m : PathMapContent) : Store :=
  { s with pathMaps := s.pathMaps.set r m }

/-- Modelled from the spec: outcome of a registered typed-config merge.
Decoding either side may fail (the Go code then stops merging further
keys), the schema Merge capability may refuse the merge, or it produces a
merged value. -/
inductive MergeOutcome : Type where
  | decodeFail : MergeOutcome
  | refused : MergeOutcome
  | ok : Value → MergeOutcome

/-- Modelled from the spec: the `artifacts.ConfigTypes` registry of typed
config schemas keyed by config kind; `none` means the kind has no
registered schema and the generic deep merge applies. -/
def ConfigRegistry : Type := String → Option (Value → Value → MergeOutcome)

/-- Go nil-interface test `configs1[cn2] == nil`: a missing key or a stored
nil value. -/
def goNil : Option Value → Bool
  | none => true
  | some .null => true
  | some _ => false

/-- The loop of `mergeConfigs` over the entries of `configs2`, mutating the
config map at `r1` in place; returns the final store and the merged flag.
A decode failure breaks the loop (merged stays true); a refusal returns
false immediately. -/
def mergeConfigsLoop (reg : ConfigRegistry) (r1 : Nat) : Store → ValueMap → Store × Bool
  | store, .nil => (store, true)
  | store, .cons k v2 rest =>
    let cur := vmLookup (getConfigMap store r1) k
    if goNil cur then
      mergeConfigsLoop reg r1 (setConfigMap store r1 (vmInsert (getConfigMap store r1) k v2)) rest
    else
      match reg k with
      | some f =>
        match f (cur.getD .null) v2 with
        | .decodeFail => (store, true)
        | .refused => (store, false)
        | .ok v =>
          mergeConfigsLoop reg r1 (setConfigMap store r1 (vmInsert (getConfigMap store r1) k v)) rest
      | none =>
        mergeConfigsLoop reg r1
          (setConfigMap store r1 (vmInsert (getConfigMap store r1) k (deepMerge (cur.getD .null) v2))) rest

/-- Embeds `mergeConfigs` (src/unnamed/part_001): nil maps short-circuit,
otherwise the entries of `configs2` are merged into the map referenced by
`configs1`, which is returned (sharing the mutated reference). -/
def mergeConfigs (reg : ConfigRegistry) (store : Store) (configs1 configs2 : Option Nat) :
    Store × Option Nat × Bool :=
  match configs1, configs2 with
  | none, _ => (store, configs2, true)
  | some r1, none => (store, some r1, true)
  | some r1, some r2 => ((mergeConfigsLoop reg r1 store (getConfigMap store r2)).1, some r1,
      (mergeConfigsLoop reg r1 store (getConfigMap store r2)).2)

/-- The loop of `mergePathSliceMaps` over the entries of `map2`, mutating
the path map at `r1` in place. -/
def mergePathsLoop (r1 : Nat) : Store → PathMapContent → Store
  | store, [] => store
  | store, (k, v) :: rest =>
    mergePathsLoop r1
      (setPathMap store r1
        (insertA (getPathMap store r1) k
          (mergeSlices ((lookupA (getPathMap store r1) k).getD []) v))) rest

/-- Embeds `mergePathSliceMaps` (src/unnamed/part_001): nil maps
short-circuit, otherwise each slice of `map2` is merged into `map1` with
`common.MergeSlices`, and the mutated `map1` is returned. -/
def mergePathSliceMaps (store : Store) (map1 map2 : Option Nat) : Store × Option Nat :=
  match map1, map2 with
  | none, _ => (store, map2)
  | some r1, none => (store, some r1)
  | some r1, some r2 => (mergePathsLoop r1 store (getPathMap store r2), some r1)

/-- The Go zero-value artifact, returned when a merge does not happen. -/
def emptyArtifact : Artifact := { name := "", type := "", paths := none, configs := none }

/-- Embeds `mergeArtifact` (src/unnamed/part_001): merges `b` into `a` when
type and name match and the configs merge; the merged artifact shares `a`'s
(mutated) maps. -/
def mergeArtifact (reg : ConfigRegistry) (store : Store) (a b : Artifact) :
    Store × Artifact × Bool :=
  if a.type = b.type ∧ a.name = b.name then
    let mc := mergeConfigs reg store a.configs b.configs
    if mc.2.2 then
      let mp := mergePathSliceMaps mc.1 a.paths b.paths
      (mp.1, { name := a.name, type := a.type, paths := mp.2, configs := mc.2.1 }, true)
    else (mc.1, emptyArtifact, false)
  else (store, emptyArtifact, false)

/-- Inner loop of `mergeArtifacts`: try to merge `old` into the first
matching element of `news`; returns the updated list and whether a merge
happened (failed attempts still thread their store mutations). -/
def mergeArtifactInner (reg : ConfigRegistry) : Store → Artifact → List Artifact →
    Store × List Artifact × Bool
  | store, _, [] => (store, [], false)
  | store, old, n :: ns =>
    let t := mergeArtifact reg store old n
    if t.2.2 then (t.1, t.2.1 :: ns, true)
    else
      let u := mergeArtifactInner reg t.1 old ns
      (u.1, n :: u.2.1, u.2.2)

/-- Outer loop of `mergeArtifacts` over the input artifacts. -/
def mergeArtifactsLoop (reg : ConfigRegistry) : Store → List Artifact → List Artifact →
    Store × List Artifact
  | store, news, [] => (store, news)
  | store, news, old :: olds =>
    let t := mergeArtifactInner reg store old news
    if t.2.2 then mergeArtifactsLoop reg t.1 t.2.1 olds
    else mergeArtifactsLoop reg t.1 (t.2.1 ++ [old]) olds

/-- Embeds `mergeArtifacts` (src/unnamed/part_001): deduplicate an artifact
list by repeated pairwise merging, first match wins. -/
def mergeArtifacts (reg : ConfigRegistry) (store : Store) (oldArtifacts : List Artifact) :
    Store × List Artifact :=
  mergeArtifactsLoop reg store [] oldArtifacts

/-- Inner loop of `updatedArtifacts`: merge a new artifact with the first
matching already-seen artifact. -/
def mergeWithSeen (reg : ConfigRegistry) : Store → Artifact → List Artifact → Store × Artifact
  | store, aNew, [] => (store, aNew)
  | store, aNew, s :: ss =>
    let t := mergeArtifact reg store aNew s
    if t.2.2 then (t.1, t.2.1) else mergeWithSeen reg t.1 aNew ss

/-- Per-element pass of `updatedArtifacts` over the new artifacts. -/
def updatedArtifactsLoop (reg : ConfigRegistry) (seen : List Artifact) :
    Store → List Artifact → Store × List Artifact
  | store, [] => (store, [])
  | store, n :: ns =>
    let t := mergeWithSeen reg store n seen
    let u := updatedArtifactsLoop reg seen t.1 ns
    (u.1, t.2 :: u.2)

/-- Embeds `updatedArtifacts` (src/unnamed/part_001): merge each new
artifact with the first matching seen artifact, then deduplicate the
result with `mergeArtifacts`. -/
def updatedArtifacts (reg : ConfigRegistry) (store : Store)
    (alreadySeenArtifacts newArtifacts : List Artifact) : Store × List Artifact :=
  mergeArtifacts reg (updatedArtifactsLoop reg alreadySeenArtifacts store newArtifacts).1
    (updatedArtifactsLoop reg alreadySeenArtifacts store newArtifacts).2

/-- The artifact identity used by the merge: the `(type, name)` pair. -/
def artifactKey (a : Artifact) : String × String := (a.type, a.name)

/-- A registry in which no registered schema ever refuses a merge (in
particular, any registry restricted to kinds that occur only with
generically-merged configs). -/
def NoRefusal (reg : ConfigRegistry) : Prop :=
  ∀ k f v1 v2, reg k = some f → f v1 v2 ≠ .refused

theorem mergeConfigsLoop_snd_true (reg : ConfigRegistry) (r1 : Nat) (hNR : NoRefusal reg) :
    ∀ (store : Store) (m : ValueMap), (mergeConfigsLoop reg r1 store m).2 = true
  | _, .nil => rfl
  | store, .cons k v2 rest => by
    by_cases hg : goNil (vmLookup (getConfigMap store r1) k) = true
    · simp only [mergeConfigsLoop, hg, if_true]
      exact mergeConfigsLoop_snd_true reg r1 hNR _ rest
    · have hg' : goNil (vmLookup (getConfigMap store r1) k) = false := by
        simpa using hg
      rcases hreg : reg k with _ | f
      · simp [mergeConfigsLoop, hg', hreg]
        exact mergeConfigsLoop_snd_true reg r1 hNR _ rest
      · rcases hf : f ((vmLookup (getConfigMap store r1) k).getD .null) v2 with _ | _ | v
        · simp [mergeConfigsLoop, hg', hreg, hf]
        · exact absurd hf (hNR k f _ _ hreg)
        · simp [mergeConfigsLoop, hg', hreg, hf]
          exact mergeConfigsLoop_snd_true reg r1 hNR _ rest

theorem mergeConfigs_snd_true (reg : ConfigRegistry) (hNR : NoRefusal reg)
    (store : Store) (c1 c2 : Option Nat) :
    (mergeConfigs reg store c1 c2).2.2 = true := by
  rcases c1 with _ | r1 <;> rcases c2 with _ | r2 <;>
    simp [mergeConfigs, mergeConfigsLoop_snd_true reg _ hNR]

/-- The merged flag of `mergeArtifact` is exactly: types equal, names
equal, and the configs merge. -/
theorem mergeArtifact_merged_iff (reg : ConfigRegistry) (store : Store) (a b : Artifact) :
    (mergeArtifact reg store a b).2.2 = true ↔
      a.type = b.type ∧ a.name = b.name ∧
        (mergeConfigs reg store a.configs b.configs).2.2 = true := by
  by_cases hk : a.type = b.type ∧ a.name = b.name
  · by_cases hm : (mergeConfigs reg store a.configs b.configs).2.2 = true
    · simp [mergeArtifact, hk, hm]
    · simp only [mergeArtifact, hk, if_true]
      simp only [Bool.not_eq_true] at hm
      simp [hm, hk]
  · simp only [mergeArtifact, hk, if_false]
    simp [emptyArtifact]
    intro h1 h2
    exact absurd ⟨h1, h2⟩ hk

theorem mergeArtifact_merged_of_noRefusal (reg : ConfigRegistry) (hNR : NoRefusal reg)
    (store : Store) (a b : Artifact) :
    (mergeArtifact reg store a b).2.2 = true ↔ (a.type = b.type ∧ a.name = b.name) := by
  rw [mergeArtifact_merged_iff]
  simp [mergeConfigs_snd_true reg hNR]

theorem mergeArtifact_fields (reg : ConfigRegistry) (store : Store) (a b : Artifact)
    (h : (mergeArtifact reg store a b).2.2 = true) :
    (mergeArtifact reg store a b).2.1.type = a.type ∧
      (mergeArtifact reg store a b).2.1.name = a.name := by
  by_cases hk : a.type = b.type ∧ a.name = b.name
  · by_cases hm : (mergeConfigs reg store a.configs b.configs).2.2 = true
    · simp [mergeArtifact, hk, hm]
    · simp only [Bool.not_eq_true] at hm
      simp [mergeArtifact, hk, hm] at h
  · simp [mergeArtifact, hk] at h

theorem mergeArtifactInner_map_key (reg : ConfigRegistry) :
    ∀ (store : Store) (old : Artifact) (news : List Artifact),
      ((mergeArtifactInner reg store old news).2.1).map artifactKey = news.map artifactKey
  | _, _, [] => rfl
  | store, old, n :: ns => by
    simp only [mergeArtifactInner]
    by_cases ht : (mergeArtifact reg store old n).2.2 = true
    · simp only [ht, if_true, List.map_cons]
      have hf := mergeArtifact_fields reg store old n ht
      have hk : old.type = n.type ∧ old.name = n.name :=
        ((mergeArtifact_merged_iff reg store old n).mp ht).imp id And.left
      simp [artifactKey, hf.1, hf.2, hk.1, hk.2]
    · simp only [Bool.not_eq_true] at ht
      simp only [ht, Bool.false_eq_true, if_false, List.map_cons]
      rw [mergeArtifactInner_map_key reg _ old ns]

theorem mergeArtifactInner_false_no_match (reg : ConfigRegistry) (hNR : NoRefusal reg) :
    ∀ (store : Store) (old : Artifact) (news : List Artifact),
      (mergeArtifactInner reg store old news).2.2 = false →
        ∀ n ∈ news, ¬(old.type = n.type ∧ old.name = n.name)
  | _, _, [], _, n, hn => absurd hn (List.not_mem_nil n)
  | store, old, n :: ns, h, n', hn' => by
    simp only [mergeArtifactInner] at h
    by_cases ht : (mergeArtifact reg store old n).2.2 = true
    · simp [ht] at h
    · simp only [Bool.not_eq_true] at ht
      simp only [ht, Bool.false_eq_true, if_false] at h
      rcases List.mem_cons.mp hn' with he | hmem
      · subst he
        intro hk
        have hm := (mergeArtifact_merged_of_noRefusal reg hNR store old n').mpr hk
        rw [hm] at ht
        exact Bool.noConfusion ht
      · exact mergeArtifactInner_false_no_match reg hNR _ old ns h n' hmem

theorem mergeArtifactsLoop_nodup (reg : ConfigRegistry) (hNR : NoRefusal reg) :
    ∀ (olds : List Artifact) (store : Store) (news : List Artifact),
      (news.map artifactKey).Nodup →
      (((mergeArtifactsLoop reg store news olds).2).map artifactKey).Nodup
  | [], _, _, h => h
  | old :: olds, store, news, h => by
    simp only [mergeArtifactsLoop]
    by_cases ht : (mergeArtifactInner reg store old news).2.2 = true
    · simp only [ht, if_true]
      apply mergeArtifactsLoop_nodup reg hNR olds
      rw [mergeArtifactInner_map_key]
      exact h
    · simp only [Bool.not_eq_true] at ht
      simp only [ht, Bool.false_eq_true, if_false]
      apply mergeArtifactsLoop_nodup reg hNR olds
      rw [List.map_append, mergeArtifactInner_map_key]
      rw [List.nodup_append]
      refine ⟨h, List.nodup_singleton _, ?_⟩
      intro x hx hx'
      simp only [List.map_cons, List.map_nil, List.mem_singleton] at hx'
      rcases List.mem_map.mp hx with ⟨n, hn, hkey⟩
      have hno := mergeArtifactInner_false_no_match reg hNR store old news ht n hn
      apply hno
      have : artifactKey old = artifactKey n := by rw [hkey, hx']
      simp only [artifactKey, Prod.mk.injEq] at this
      exact this

/-- C2 (amended): as long as no typed-config merge refuses (for example
when no config kind of the inputs has a registered schema), `mergeArtifacts`
returns at most one artifact per `(type, name)` pair. -/
theorem mergeArtifacts_at_most_one_per_key (reg : ConfigRegistry) (hNR : NoRefusal reg)
    (store : Store) (xs : List Artifact) :
    ((mergeArtifacts reg store xs).2).Pairwise
      (fun x y => ¬(x.type = y.type ∧ x.name = y.name)) := by
  have hnd := mergeArtifactsLoop_nodup reg hNR xs store [] (by simp)
  rw [List.Nodup, List.pairwise_map] at hnd
  exact hnd.imp (fun hne hk => hne (by simp [artifactKey, hk.1, hk.2]))

/-- A registry whose schema for kind `ck` always refuses to merge. -/
def regRefuseCk : ConfigRegistry :=
  fun k => if k = "ck" then some (fun _ _ => .refused) else none

/-- A store holding two config maps with incompatible `ck` configs. -/
def storeRefuse : Store :=
  { configMaps := [.cons "ck" (.int 1) .nil, .cons "ck" (.int 2) .nil], pathMaps := [] }

/-- First artifact with a refusing config. -/
def artRefuseA : Artifact := { name := "svc", type := "Service", paths := none, configs := some 0 }

/-- Second artifact, same type and name, incompatible config. -/
def artRefuseB : Artifact := { name := "svc", type := "Service", paths := none, configs := some 1 }

/-- C2 (counterexample): when a typed config refuses to merge, the list
returned by `mergeArtifacts` keeps two artifacts with the same
`(type, name)` pair, so the claim as stated is false. -/
theorem mergeArtifacts_duplicate_key_counterexample :
    ¬ ((mergeArtifacts regRefuseCk storeRefuse [artRefuseA, artRefuseB]).2).Pairwise
        (fun x y => ¬(x.type = y.type ∧ x.name = y.name)) := by
  decide

/-- C2 (witness): at a concrete refusal-free input with two mergeable and
one distinct artifact, the merged list has pairwise-distinct keys. -/
theorem mergeArtifacts_at_most_one_per_key_witness :
    ((mergeArtifacts (fun _ => none) { configMaps := [], pathMaps := [] }
        [{ name := "a", type := "T", paths := none, configs := none },
         { name := "a", type := "T", paths := none, configs := none },
         { name := "b", type := "T", paths := none, configs := none }]).2).Pairwise
      (fun x y => ¬(x.type = y.type ∧ x.name = y.name)) :=
  mergeArtifacts_at_most_one_per_key (fun _ => none)
    (fun _ _ _ _ h => Option.noConfusion h) _ _

/-- C3 (amended): `mergeArtifact a b` reports a successful merge exactly
when the types are equal, the names are equal, and the configs merge
(a registered schema may refuse); equality of type and name alone does not
decide success. -/
theorem mergeArtifact_success_iff (reg : ConfigRegistry) (store : Store) (a b : Artifact) :
    (mergeArtifact reg store a b).2.2 = true ↔
      a.type = b.type ∧ a.name = b.name ∧
        (mergeConfigs reg store a.configs b.configs).2.2 = true :=
  mergeArtifact_merged_iff reg store a b

/-- C3 (counterexample): two artifacts with equal type and name whose
configs refuse to merge make `mergeArtifact` return `false`, so merge
success is not decided by `(type, name)` equality alone. -/
theorem mergeArtifact_not_decided_by_key_counterexample :
    artRefuseA.type = artRefuseB.type ∧ artRefuseA.name = artRefuseB.name ∧
      (mergeArtifact regRefuseCk storeRefuse artRefuseA artRefuseB).2.2 = false := by
  decide

theorem setConfigMap_pathMaps (s : Store) (r : Nat) (m : ValueMap) :
    (setConfigMap s r m).pathMaps = s.pathMaps := rfl

theorem setPathMap_configMaps (s : Store) (r : Nat) (m : PathMapContent) :
    (setPathMap s r m).configMaps = s.configMaps := rfl

theorem mergeConfigsLoop_pathMaps (reg : ConfigRegistry) (r1 : Nat) :
    ∀ (store : Store) (m : ValueMap),
      (mergeConfigsLoop reg r1 store m).1.pathMaps = store.pathMaps
  | _, .nil => rfl
  | store, .cons k v2 rest => by
    by_cases hg : goNil (vmLookup (getConfigMap store r1) k) = true
    · simp only [mergeConfigsLoop, hg, if_true]
      rw [mergeConfigsLoop_pathMaps reg r1 _ rest, setConfigMap_pathMaps]
    · have hg' : goNil (vmLookup (getConfigMap store r1) k) = false := by simpa using hg
      rcases hreg : reg k with _ | f
      · simp only [mergeConfigsLoop, hg', Bool.false_eq_true, if_false, hreg]
        rw [mergeConfigsLoop_pathMaps reg r1 _ rest, setConfigMap_pathMaps]
      · rcases hf : f ((vmLookup (getConfigMap store r1) k).getD .null) v2 with _ | _ | v
        · simp [mergeConfigsLoop, hg', hreg, hf]
        · simp [mergeConfigsLoop, hg', hreg, hf]
        · simp only [mergeConfigsLoop, hg', Bool.false_eq_true, if_false, hreg, hf]
          rw [mergeConfigsLoop_pathMaps reg r1 _ rest, setConfigMap_pathMaps]

theorem mergeConfigsLoop_frame (reg : ConfigRegistry) (r1 : Nat) :
    ∀ (store : Store) (m : ValueMap) (r' : Nat), r' ≠ r1 →
      (mergeConfigsLoop reg r1 store m).1.configMaps[r']? = store.configMaps[r']?
  | _, .nil, _, _ => rfl
  | store, .cons k v2 rest, r', hne => by
    have hset : ∀ x, (setConfigMap store r1 x).configMaps[r']? = store.configMaps[r']? := by
      intro x
      exact List.getElem?_set_ne (by omega)
    by_cases hg : goNil (vmLookup (getConfigMap store r1) k) = true
    · simp only [mergeConfigsLoop, hg, if_true]
      rw [mergeConfigsLoop_frame reg r1 _ rest r' hne, hset]
    · have hg' : goNil (vmLookup (getConfigMap store r1) k) = false := by simpa using hg
      rcases hreg : reg k with _ | f
      · simp only [mergeConfigsLoop, hg', Bool.false_eq_true, if_false, hreg]
        rw [mergeConfigsLoop_frame reg r1 _ rest r' hne, hset]
      · rcases hf : f ((vmLookup (getConfigMap store r1) k).getD .null) v2 with _ | _ | v
        · simp [mergeConfigsLoop, hg', hreg, hf]
        · simp [mergeConfigsLoop, hg', hreg, hf]
        · simp only [mergeConfigsLoop, hg', Bool.false_eq_true, if_false, hreg, hf]
          rw [mergeConfigsLoop_frame reg r1 _ rest r' hne, hset]

theorem mergePathsLoop_configMaps (r1 : Nat) :
    ∀ (store : Store) (m : PathMapContent),
      (mergePathsLoop r1 store m).configMaps = store.configMaps
  | _, [] => rfl
  | store, (k, v) :: rest => by
    simp only [mergePathsLoop]
    rw [mergePathsLoop_configMaps r1 _ rest, setPathMap_configMaps]

theorem mergePathsLoop_frame (r1 : Nat) :
    ∀ (store : Store) (m : PathMapContent) (r' : Nat), r' ≠ r1 →
      (mergePathsLoop r1 store m).pathMaps[r']? = store.pathMaps[r']?
  | _, [], _, _ => rfl
  | store, (k, v) :: rest, r', hne => by
    simp only [mergePathsLoop]
    rw [mergePathsLoop_frame r1 _ rest r' hne]
    exact List.getElem?_set_ne (by omega)

theorem mergeConfigs_pathMaps (reg : ConfigRegistry) (store : Store) (c1 c2 : Option Nat) :
    (mergeConfigs reg store c1 c2).1.pathMaps = store.pathMaps := by
  rcases c1 with _ | r1 <;> rcases c2 with _ | r2 <;>
    simp [mergeConfigs, mergeConfigsLoop_pathMaps]

theorem mergeConfigs_frame (reg : ConfigRegistry) (store : Store) (c1 c2 : Option Nat)
    (r' : Nat) (h : c1 ≠ some r') :
    (mergeConfigs reg store c1 c2).1.configMaps[r']? = store.configMaps[r']? := by
  rcases c1 with _ | r1
  · rcases c2 with _ | r2 <;> simp [mergeConfigs]
  · have hne : r' ≠ r1 := fun he => h (by rw [he])
    rcases c2 with _ | r2
    · simp [mergeConfigs]
    · simp [mergeConfigs, mergeConfigsLoop_frame reg r1 store _ r' hne]

theorem mergePathSliceMaps_configMaps (store : Store) (p1 p2 : Option Nat) :
    (mergePathSliceMaps store p1 p2).1.configMaps = store.configMaps := by
  rcases p1 with _ | r1 <;> rcases p2 with _ | r2 <;>
    simp [mergePathSliceMaps, mergePathsLoop_configMaps]

theorem mergePathSliceMaps_frame (store : Store) (p1 p2 : Option Nat)
    (r' : Nat) (h : p1 ≠ some r') :
    (mergePathSliceMaps store p1 p2).1.pathMaps[r']? = store.pathMaps[r']? := by
  rcases p1 with _ | r1
  · rcases p2 with _ | r2 <;> simp [mergePathSliceMaps]
  · have hne : r' ≠ r1 := fun he => h (by rw [he])
    rcases p2 with _ | r2
    · simp [mergePathSliceMaps]
    · simp [mergePathSliceMaps, mergePathsLoop_frame r1 store _ r' hne]

/-- C7 (amended): `mergeArtifact` clones nothing — it merges into the maps
referenced by the first artifact in place; only the second artifact's maps
are guaranteed unchanged (when not aliased to the first's). -/
theorem mergeArtifact_preserves_second_maps (reg : ConfigRegistry) (store : Store)
    (a b : Artifact) :
    (∀ rb, b.configs = some rb → a.configs ≠ some rb →
      (mergeArtifact reg store a b).1.configMaps[rb]? = store.configMaps[rb]?) ∧
    (∀ rb, b.paths = some rb → a.paths ≠ some rb →
      (mergeArtifact reg store a b).1.pathMaps[rb]? = store.pathMaps[rb]?) := by
  by_cases hk : a.type = b.type ∧ a.name = b.name
  · by_cases hm : (mergeConfigs reg store a.configs b.configs).2.2 = true
    · constructor
      · intro rb _ hnal
        simp only [mergeArtifact]
        rw [if_pos hk, if_pos hm]
        dsimp only
        rw [mergePathSliceMaps_configMaps]
        exact mergeConfigs_frame reg store a.configs b.configs rb hnal
      · intro rb _ hnal
        simp only [mergeArtifact]
        rw [if_pos hk, if_pos hm]
        dsimp only
        rw [mergePathSliceMaps_frame _ _ _ _ hnal, mergeConfigs_pathMaps]
    · constructor
      · intro rb _ hnal
        simp only [mergeArtifact]
        rw [if_pos hk, if_neg hm]
        dsimp only
        exact mergeConfigs_frame reg store a.configs b.configs rb hnal
      · intro rb _ _
        simp only [mergeArtifact]
        rw [if_pos hk, if_neg hm]
        dsimp only
        rw [mergeConfigs_pathMaps]
  · simp [mergeArtifact, hk]

/-- The registry with no registered config kinds: every config merges by
the generic deep merge. -/
def genericRegistry : ConfigRegistry := fun _ => none

/-- A store for the mutation counterexample: two config maps with disjoint
keys. -/
def storeMut : Store :=
  { configMaps := [.cons "k1" (.int 1) .nil, .cons "k2" (.int 2) .nil], pathMaps := [] }

/-- First artifact of the mutation counterexample. -/
def artMutA : Artifact := { name := "n", type := "t", paths := none, configs := some 0 }

/-- Second artifact of the mutation counterexample. -/
def artMutB : Artifact := { name := "n", type := "t", paths := none, configs := some 1 }

/-- C7 (counterexample): merging two mergeable artifacts rewrites the map
referenced by the first artifact's `Configs` in place — after the call the
map holds the merged entries, not its original content — so `mergeArtifact`
does not leave its inputs unchanged. -/
theorem mergeArtifact_mutates_first_counterexample :
    (mergeArtifact genericRegistry storeMut artMutA artMutB).2.2 = true ∧
    storeMut.configMaps[0]? = some (.cons "k1" (.int 1) .nil) ∧
    (mergeArtifact genericRegistry storeMut artMutA artMutB).1.configMaps[0]? =
      some (.cons "k1" (.int 1) (.cons "k2" (.int 2) .nil)) := by
  decide

/-- C7 (witness): at a concrete input with distinct map references, the
second artifact's config and path maps are untouched by the merge. -/
theorem mergeArtifact_preserves_second_maps_witness :
    (mergeArtifact genericRegistry storeMut artMutA artMutB).1.configMaps[1]? =
      storeMut.configMaps[1]? :=
  (mergeArtifact_preserves_second_maps genericRegistry storeMut artMutA artMutB).1 1 rfl
    (by decide)

theorem set_self_of_getElem?_none {α : Type} :
    ∀ (l : List α) (r : Nat) (x : α), l[r]? = none → l.set r x = l
  | [], _, _, _ => rfl
  | y :: rest, 0, x, h => by simp at h
  | y :: rest, r + 1, x, h => by
    rw [List.getElem?_cons_succ] at h
    simp [List.set, set_self_of_getElem?_none rest r x h]

theorem setConfigMap_get_self (s : Store) (r : Nat) :
    setConfigMap s r (getConfigMap s r) = s := by
  rcases hr : s.configMaps[r]? with _ | m
  · simp only [setConfigMap, getConfigMap, hr, Option.getD_none]
    rw [set_self_of_getElem?_none _ _ _ hr]
  · simp only [setConfigMap, getConfigMap, hr, Option.getD_some]
    rw [set_self_of_getElem? _ _ _ hr]

theorem setPathMap_get_self (s : Store) (r : Nat) :
    setPathMap s r (getPathMap s r) = s := by
  rcases hr : s.pathMaps[r]? with _ | m
  · simp only [setPathMap, getPathMap, hr, Option.getD_none]
    rw [set_self_of_getElem?_none _ _ _ hr]
  · simp only [setPathMap, getPathMap, hr, Option.getD_some]
    rw [set_self_of_getElem? _ _ _ hr]

/-- A config map fit for a self-merge under the generic rules: unique keys,
well-formed values, and no registered schema for any of its kinds. -/
def ConfigMapOK (reg : ConfigRegistry) (m : ValueMap) : Prop :=
  vmKeysNodup m = true ∧ valueMapWF m = true ∧ ∀ k, vmHasKey m k = true → reg k = none

theorem mergeConfigsLoop_self (reg : ConfigRegistry) (r : Nat) (store : Store) :
    ∀ l2 : ValueMap,
      (∀ k v, vmEntryMem l2 k v →
        vmLookup (getConfigMap store r) k = some v ∧ reg k = none ∧ deepMerge v v = v) →
      mergeConfigsLoop reg r store l2 = (store, true)
  | .nil, _ => rfl
  | .cons k v2 rest, h => by
    obtain ⟨hlk, hreg, hdm⟩ := h k v2 (Or.inl ⟨rfl, rfl⟩)
    by_cases hnull : v2 = Value.null
    · subst hnull
      have hg : goNil (vmLookup (getConfigMap store r) k) = true := by rw [hlk]; rfl
      simp only [mergeConfigsLoop, hg, if_true]
      rw [vmInsert_lookup_self _ _ _ hlk, setConfigMap_get_self]
      exact mergeConfigsLoop_self reg r store rest (fun k' v' hm => h k' v' (Or.inr hm))
    · have hg : goNil (vmLookup (getConfigMap store r) k) = false := by
        rw [hlk]
        cases v2 with
        | null => exact absurd rfl hnull
        | str s => rfl
        | int n => rfl
        | bool b => rfl
        | list l => rfl
        | map m => rfl
      simp only [mergeConfigsLoop, hg, Bool.false_eq_true, if_false, hreg]
      rw [hlk]
      dsimp only [Option.getD]
      rw [hdm, vmInsert_lookup_self _ _ _ hlk, setConfigMap_get_self]
      exact mergeConfigsLoop_self reg r store rest (fun k' v' hm => h k' v' (Or.inr hm))

theorem mergeConfigs_self (reg : ConfigRegistry) (store : Store) (c : Option Nat)
    (h : ∀ r, c = some r → ConfigMapOK reg (getConfigMap store r)) :
    mergeConfigs reg store c c = (store, c, true) := by
  rcases c with _ | r
  · rfl
  · obtain ⟨hnd, hwf, hreg⟩ := h r rfl
    have hloop := mergeConfigsLoop_self reg r store (getConfigMap store r)
      (fun k v hm =>
        ⟨vmLookup_of_nodup_mem _ k v hnd hm,
         hreg k (vmEntryMem_hasKey _ k v hm),
         deepMerge_self v (vmEntryMem_valueWF _ k v hwf hm)⟩)
    simp only [mergeConfigs, hloop]

theorem lookupA_eq_none_of_not_mem_keys {α : Type} :
    ∀ (l : List (String × α)) (k : String), k ∉ l.map Prod.fst → lookupA l k = none
  | [], _, _ => rfl
  | (k1, v1) :: rest, k, h => by
    simp only [List.map_cons, List.mem_cons] at h
    push_neg at h
    have hk : k1 ≠ k := fun he => h.1 he.symm
    simp [lookupA, hk, lookupA_eq_none_of_not_mem_keys rest k h.2]

theorem mergePathsLoop_self (r : Nat) (store : Store) :
    ∀ l2 : PathMapContent,
      (∀ k v, (k, v) ∈ l2 → lookupA (getPathMap store r) k = some v) →
      mergePathsLoop r store l2 = store
  | [], _ => rfl
  | (k, v) :: rest, h => by
    have hlk := h k v (List.mem_cons_self _ _)
    simp only [mergePathsLoop, hlk]
    dsimp only [Option.getD]
    rw [mergeSlices_self, insertA_lookupA_self _ _ _ hlk, setPathMap_get_self]
    exact mergePathsLoop_self r store rest (fun k' v' hm => h k' v' (List.mem_cons_of_mem _ hm))

theorem mergePathSliceMaps_self (store : Store) (p : Option Nat)
    (h : ∀ r, p = some r → ((getPathMap store r).map Prod.fst).Nodup) :
    mergePathSliceMaps store p p = (store, p) := by
  rcases p with _ | r
  · rfl
  · have hloop := mergePathsLoop_self r store (getPathMap store r)
      (fun k v hm => lookupA_of_nodup_mem (h r rfl) hm)
    simp only [mergePathSliceMaps, hloop]

/-- The pure content transformation performed by `mergePathsLoop` on the
map it mutates. -/
def pathFold (c1 l2 : PathMapContent) : PathMapContent :=
  l2.foldl (fun acc kv => insertA acc kv.1 (mergeSlices ((lookupA acc kv.1).getD []) kv.2)) c1

theorem mergePathsLoop_get (r : Nat) :
    ∀ (store : Store) (l2 : PathMapContent), r < store.pathMaps.length →
      getPathMap (mergePathsLoop r store l2) r = pathFold (getPathMap store r) l2 ∧
        (mergePathsLoop r store l2).pathMaps.length = store.pathMaps.length
  | _, [], _ => ⟨rfl, rfl⟩
  | store, (k, v) :: rest, hr => by
    simp only [mergePathsLoop, pathFold, List.foldl_cons]
    have hset : getPathMap
        (setPathMap store r
          (insertA (getPathMap store r) k
            (mergeSlices ((lookupA (getPathMap store r) k).getD []) v))) r =
        insertA (getPathMap store r) k
          (mergeSlices ((lookupA (getPathMap store r) k).getD []) v) := by
      simp only [getPathMap, setPathMap]
      rw [List.getElem?_set_eq_of_lt _ hr]
      rfl
    have hlen : (setPathMap store r
        (insertA (getPathMap store r) k
          (mergeSlices ((lookupA (getPathMap store r) k).getD []) v))).pathMaps.length =
        store.pathMaps.length := by
      simp [setPathMap]
    have hrec := mergePathsLoop_get r
      (setPathMap store r
        (insertA (getPathMap store r) k
          (mergeSlices ((lookupA (getPathMap store r) k).getD []) v))) rest
      (by rw [hlen]; exact hr)
    refine ⟨?_, by rw [hrec.2, hlen]⟩
    rw [hrec.1, hset]
    rfl

theorem mem_pathFold :
    ∀ (l2 : PathMapContent) (c1 : PathMapContent) (k p : String),
      (l2.map Prod.fst).Nodup →
      (p ∈ (lookupA (pathFold c1 l2) k).getD [] ↔
        p ∈ (lookupA c1 k).getD [] ∨ p ∈ (lookupA l2 k).getD [])
  | [], c1, k, p, _ => by simp [pathFold, lookupA]
  | (k0, v0) :: rest, c1, k, p, hnd => by
    simp only [List.map_cons, List.nodup_cons] at hnd
    have hstep : pathFold c1 ((k0, v0) :: rest) =
        pathFold (insertA c1 k0 (mergeSlices ((lookupA c1 k0).getD []) v0)) rest := rfl
    rw [hstep]
    by_cases hk : k = k0
    · subst hk
      rw [mem_pathFold rest _ k p hnd.2]
      rw [lookupA_insertA_self]
      rw [lookupA_eq_none_of_not_mem_keys rest k hnd.1]
      simp only [Option.getD_some, Option.getD_none, List.not_mem_nil, or_false]
      rw [mem_mergeSlices]
      simp [lookupA]
    · rw [mem_pathFold rest _ k p hnd.2]
      rw [lookupA_insertA_ne _ _ _ _ (fun he => hk he.symm)]
      have : lookupA ((k0, v0) :: rest) k = lookupA rest k := by
        simp only [lookupA]
        rw [if_neg (fun he => hk he.symm)]
      rw [this]

/-- The path entries reachable for key `k` through an optional path map
reference. -/
def optPathsAt (store : Store) : Option Nat → String → List String
  | none, _ => []
  | some r, k => (lookupA (getPathMap store r) k).getD []

theorem mergePathSliceMaps_mem (store : Store) (p1 p2 : Option Nat)
    (h1 : ∀ r, p1 = some r → r < store.pathMaps.length)
    (h2 : ∀ r, p2 = some r → ((getPathMap store r).map Prod.fst).Nodup)
    (k p : String) :
    (match (mergePathSliceMaps store p1 p2).2 with
     | none => False
     | some r => p ∈ (lookupA (getPathMap (mergePathSliceMaps store p1 p2).1 r) k).getD []) ↔
      (p ∈ optPathsAt store p1 k ∨ p ∈ optPathsAt store p2 k) := by
  rcases p1 with _ | r1
  · rcases p2 with _ | r2
    · simp [mergePathSliceMaps, optPathsAt]
    · simp [mergePathSliceMaps, optPathsAt]
  · rcases p2 with _ | r2
    · simp [mergePathSliceMaps, optPathsAt]
    · have hget := mergePathsLoop_get r1 store (getPathMap store r2) (h1 r1 rfl)
      simp only [mergePathSliceMaps, optPathsAt]
      rw [hget.1]
      exact mem_pathFold (getPathMap store r2) (getPathMap store r1) k p (h2 r2 rfl)

theorem getPathMap_eq_of_pathMaps_eq {s s' : Store} (h : s.pathMaps = s'.pathMaps)
    (r : Nat) : getPathMap s r = getPathMap s' r := by
  simp [getPathMap, h]

theorem optPathsAt_eq_of_pathMaps_eq {s s' : Store} (h : s.pathMaps = s'.pathMaps)
    (o : Option Nat) (k : String) : optPathsAt s o k = optPathsAt s' o k := by
  cases o <;> simp [optPathsAt, getPathMap, h]

/-- Membership of a path `p` under path kind `k` in the merged artifact of
a `mergeArtifact` result, resolved through the final store. -/
def mergedPathMem (t : Store × Artifact × Bool) (k p : String) : Prop :=
  match t.2.1.paths with
  | none => False
  | some r => p ∈ (lookupA (getPathMap t.1 r) k).getD []

/-- C6 (amended): for two artifacts with equal type and name, generically
mergeable configs and well-formed path maps, the merge is idempotent
(`mergeArtifact a a` returns `a` itself and leaves the store unchanged),
and `mergeArtifact a b` and `mergeArtifact b a` both succeed and agree on
type, name, and on the set of paths under every path kind.  The merged
configs are right-biased and need not agree — the claimed full
commutativity fails (see the counterexample). -/
theorem mergeArtifact_idem_and_paths_comm (reg : ConfigRegistry) (store : Store)
    (a b : Artifact) (hNR : NoRefusal reg)
    (hkey : a.type = b.type ∧ a.name = b.name)
    (hacfg : ∀ r, a.configs = some r → ConfigMapOK reg (getConfigMap store r))
    (hap : ∀ r, a.paths = some r →
      r < store.pathMaps.length ∧ ((getPathMap store r).map Prod.fst).Nodup)
    (hbp : ∀ r, b.paths = some r →
      r < store.pathMaps.length ∧ ((getPathMap store r).map Prod.fst).Nodup) :
    mergeArtifact reg store a a = (store, a, true) ∧
    (mergeArtifact reg store a b).2.2 = true ∧
    (mergeArtifact reg store b a).2.2 = true ∧
    (mergeArtifact reg store a b).2.1.type = (mergeArtifact reg store b a).2.1.type ∧
    (mergeArtifact reg store a b).2.1.name = (mergeArtifact reg store b a).2.1.name ∧
    ∀ k p, mergedPathMem (mergeArtifact reg store a b) k p ↔
      mergedPathMem (mergeArtifact reg store b a) k p := by
  have hmcAB : (mergeConfigs reg store a.configs b.configs).2.2 = true :=
    mergeConfigs_snd_true reg hNR store a.configs b.configs
  have hmcBA : (mergeConfigs reg store b.configs a.configs).2.2 = true :=
    mergeConfigs_snd_true reg hNR store b.configs a.configs
  have hfAB : (mergeArtifact reg store a b).2.2 = true :=
    (mergeArtifact_merged_iff reg store a b).mpr ⟨hkey.1, hkey.2, hmcAB⟩
  have hfBA : (mergeArtifact reg store b a).2.2 = true :=
    (mergeArtifact_merged_iff reg store b a).mpr ⟨hkey.1.symm, hkey.2.symm, hmcBA⟩
  refine ⟨?_, hfAB, hfBA, ?_, ?_, ?_⟩
  · have hmc := mergeConfigs_self reg store a.configs hacfg
    have hmp := mergePathSliceMaps_self store a.paths (fun r hr => (hap r hr).2)
    unfold mergeArtifact
    rw [if_pos (And.intro rfl rfl), hmc]
    dsimp only
    rw [if_pos rfl, hmp]
  · rw [(mergeArtifact_fields reg store a b hfAB).1,
      (mergeArtifact_fields reg store b a hfBA).1, hkey.1]
  · rw [(mergeArtifact_fields reg store a b hfAB).2,
      (mergeArtifact_fields reg store b a hfBA).2, hkey.2]
  · intro k p
    have hAB : mergeArtifact reg store a b =
        ((mergePathSliceMaps (mergeConfigs reg store a.configs b.configs).1 a.paths b.paths).1,
          { name := a.name, type := a.type,
            paths := (mergePathSliceMaps (mergeConfigs reg store a.configs b.configs).1
              a.paths b.paths).2,
            configs := (mergeConfigs reg store a.configs b.configs).2.1 }, true) := by
      simp only [mergeArtifact]
      rw [if_pos ⟨hkey.1, hkey.2⟩, if_pos hmcAB]
    have hBA : mergeArtifact reg store b a =
        ((mergePathSliceMaps (mergeConfigs reg store b.configs a.configs).1 b.paths a.paths).1,
          { name := b.name, type := b.type,
            paths := (mergePathSliceMaps (mergeConfigs reg store b.configs a.configs).1
              b.paths a.paths).2,
            configs := (mergeConfigs reg store b.configs a.configs).2.1 }, true) := by
      simp only [mergeArtifact]
      rw [if_pos ⟨hkey.1.symm, hkey.2.symm⟩, if_pos hmcBA]
    have hpmAB : (mergeConfigs reg store a.configs b.configs).1.pathMaps = store.pathMaps :=
      mergeConfigs_pathMaps reg store a.configs b.configs
    have hpmBA : (mergeConfigs reg store b.configs a.configs).1.pathMaps = store.pathMaps :=
      mergeConfigs_pathMaps reg store b.configs a.configs
    have hmemAB := mergePathSliceMaps_mem (mergeConfigs reg store a.configs b.configs).1
      a.paths b.paths
      (fun r hr => by rw [hpmAB]; exact (hap r hr).1)
      (fun r hr => by rw [getPathMap_eq_of_pathMaps_eq hpmAB]; exact (hbp r hr).2)
      k p
    have hmemBA := mergePathSliceMaps_mem (mergeConfigs reg store b.configs a.configs).1
      b.paths a.paths
      (fun r hr => by rw [hpmBA]; exact (hbp r hr).1)
      (fun r hr => by rw [getPathMap_eq_of_pathMaps_eq hpmBA]; exact (hap r hr).2)
      k p
    rw [hAB, hBA]
    show (match (mergePathSliceMaps (mergeConfigs reg store a.configs b.configs).1
        a.paths b.paths).2 with
      | none => False
      | some r => p ∈ (lookupA (getPathMap
          (mergePathSliceMaps (mergeConfigs reg store a.configs b.configs).1
            a.paths b.paths).1 r) k).getD []) ↔
      (match (mergePathSliceMaps (mergeConfigs reg store b.configs a.configs).1
        b.paths a.paths).2 with
      | none => False
      | some r => p ∈ (lookupA (getPathMap
          (mergePathSliceMaps (mergeConfigs reg store b.configs a.configs).1
            b.paths a.paths).1 r) k).getD [])
    rw [hmemAB, hmemBA]
    rw [optPathsAt_eq_of_pathMaps_eq hpmAB a.paths k,
      optPathsAt_eq_of_pathMaps_eq hpmAB b.paths k,
      optPathsAt_eq_of_pathMaps_eq hpmBA a.paths k,
      optPathsAt_eq_of_pathMaps_eq hpmBA b.paths k]
    exact Or.comm

/-- A store for the commutativity counterexample: one scalar config key
with conflicting values on the two sides. -/
def storeComm : Store :=
  { configMaps := [.cons "k" (.int 1) .nil, .cons "k" (.int 2) .nil], pathMaps := [] }

/-- First artifact of the commutativity counterexample. -/
def artCommA : Artifact := { name := "n", type := "t", paths := none, configs := some 0 }

/-- Second artifact of the commutativity counterexample. -/
def artCommB : Artifact := { name := "n", type := "t", paths := none, configs := some 1 }

/-- C6 (counterexample): both merge orders succeed, but the generic deep
merge is right-biased on scalars, so the merged `Configs` of
`mergeArtifact a b` and `mergeArtifact b a` differ — the merge is not
commutative even up to path-list order. -/
theorem mergeArtifact_not_commutative_counterexample :
    (mergeArtifact genericRegistry storeComm artCommA artCommB).2.2 = true ∧
    (mergeArtifact genericRegistry storeComm artCommB artCommA).2.2 = true ∧
    (mergeArtifact genericRegistry storeComm artCommA artCommB).2.1.configs = some 0 ∧
    (mergeArtifact genericRegistry storeComm artCommB artCommA).2.1.configs = some 1 ∧
    vmLookup (getConfigMap (mergeArtifact genericRegistry storeComm artCommA artCommB).1 0)
      "k" = some (.int 2) ∧
    vmLookup (getConfigMap (mergeArtifact genericRegistry storeComm artCommB artCommA).1 1)
      "k" = some (.int 1) := by
  decide

/-- A store for the C6 witness: two path maps and one empty config map. -/
def storeIdem : Store :=
  { configMaps := [.nil], pathMaps := [[("src", ["p1"])], [("src", ["p2"])]] }

/-- First artifact of the C6 witness. -/
def artIdemA : Artifact := { name := "n", type := "t", paths := some 0, configs := some 0 }

/-- Second artifact of the C6 witness. -/
def artIdemB : Artifact := { name := "n", type := "t", paths := some 1, configs := none }

/-- C6 (witness): the amended theorem instantiated at a concrete pair of
mergeable artifacts with distinct path maps. -/
theorem mergeArtifact_idem_and_paths_comm_witness :
    mergeArtifact genericRegistry storeIdem artIdemA artIdemA = (storeIdem, artIdemA, true) ∧
    (mergeArtifact genericRegistry storeIdem artIdemA artIdemB).2.2 = true ∧
    (mergeArtifact genericRegistry storeIdem artIdemB artIdemA).2.2 = true ∧
    (mergeArtifact genericRegistry storeIdem artIdemA artIdemB).2.1.type =
      (mergeArtifact genericRegistry storeIdem artIdemB artIdemA).2.1.type ∧
    (mergeArtifact genericRegistry storeIdem artIdemA artIdemB).2.1.name =
      (mergeArtifact genericRegistry storeIdem artIdemB artIdemA).2.1.name ∧
    ∀ k p, mergedPathMem (mergeArtifact genericRegistry storeIdem artIdemA artIdemB) k p ↔
      mergedPathMem (mergeArtifact genericRegistry storeIdem artIdemB artIdemA) k p :=
  mergeArtifact_idem_and_paths_comm genericRegistry storeIdem artIdemA artIdemB
    (fun _ _ _ _ h => Option.noConfusion h)
    ⟨rfl, rfl⟩
    (fun r hr => by
      cases hr
      exact ⟨rfl, by decide, fun k h => rfl⟩)
    (fun r hr => by
      cases hr
      exact ⟨by decide, by decide⟩)
    (fun r hr => by
      cases hr
      exact ⟨by decide, by decide⟩)

/-! ## Transformer registry filtering

Embeds `getTransformerConfig`, `getFilteredTransformers` and
`postProcessArtifacts` (src/unnamed/part_001).  The YAML file reader and
the k8s label-selector machinery are external; descriptor decoding is
abstracted as an oracle `readYaml` and selectors are modelled from the
spec in matchLabels form. -/

/-- Modelled from the spec: a k8s label selector in matchLabels form — it
matches exactly the label sets containing every listed pair; an empty list
is the match-everything selector. -/
structure Selector where
  matchLabels : List (String × String)
deriving DecidableEq

/-- Whether a selector matches a label set. -/
def Selector.matches (s : Selector) (ls : List (String × String)) : Bool :=
  s.matchLabels.all (fun kv => decide (lookupA ls kv.1 = some kv.2))

/-- One entry of a transformer's `produces` table
(`transformertypes.ArtifactProcessConfig`). -/
structure ArtifactProcessConfig where
  changeTypeTo : String
deriving DecidableEq

/-- A loaded transformer descriptor (`transformertypes.Transformer`),
restricted to the fields the filtering and post-processing logic reads. -/
structure Transformer where
  name : String
  labels : List (String × String)
  specClass : String
  overrideSelector : Option Selector
  producedArtifacts : List (String × ArtifactProcessConfig)
  filePath : String
deriving DecidableEq

/-- A raw descriptor as decoded from YAML by the external reader
(`common.ReadMove2KubeYaml`), before `getTransformerConfig` normalises it.
`overrideParse` is the outcome of the external selector parsing used by
`getSelectorFromInterface` (an error, or an optional selector). -/
structure RawTransformer where
  kind : String
  name : String
  labels : List (String × String)
  specClass : String
  overrideParse : Except Unit (Option Selector)
  producedArtifacts : List (String × ArtifactProcessConfig)

/-- Modelled from the spec: the required descriptor kind
(`transformertypes.TransformerKind`, §6 descriptor files). -/
def transformerKind : String := "Transformer"

/-- Modelled from the spec: the self-label key assigned to every
descriptor (`transformertypes.LabelName`, "assign each descriptor a
self-label name=<name>"). -/
def labelName : String := "name"

/-- Embeds `getTransformerConfig` (src/unnamed/part_001): read the
descriptor, enforce the kind check, add the self-label, and drop the
override selector if it fails to parse. -/
def getTransformerConfig (readYaml : String → Option RawTransformer) (path : String) :
    Option Transformer :=
  match readYaml path with
  | none => none
  | some raw =>
    if raw.kind ≠ transformerKind then none
    else some
      { name := raw.name
        labels := insertA raw.labels labelName raw.name
        specClass := raw.specClass
        overrideSelector :=
          match raw.overrideParse with
          | .error _ => none
          | .ok s => s
        producedArtifacts := raw.producedArtifacts
        filePath := path }

/-- The mutable state of the first loop of `getFilteredTransformers`:
the name-keyed bag of accepted descriptors, the collected override
selectors, and the duplicate-name errors reported so far
(name, first file path, second file path). -/
structure FilterState where
  filtered : List (String × Transformer)
  overrideSelectors : List Selector
  dupErrors : List (String × String × String)
deriving DecidableEq

/-- First loop of `getFilteredTransformers`: load each descriptor, report
duplicate names, drop selector mismatches, collect override selectors
(before the class check), and keep descriptors of registered classes. -/
def getFilteredLoop1 (readYaml : String → Option RawTransformer)
    (registeredClasses : List String) (selector : Selector) :
    FilterState → List (String × String) → FilterState
  | st, [] => st
  | st, (_, tfilepath) :: rest =>
    match getTransformerConfig readYaml tfilepath with
    | none => getFilteredLoop1 readYaml registeredClasses selector st rest
    | some tc =>
      let st1 :=
        match lookupA st.filtered tc.name with
        | some ot =>
          { st with dupErrors := st.dupErrors ++ [(tc.name, ot.filePath, tc.filePath)] }
        | none => st
      if selector.matches tc.labels = true then
        let st2 :=
          match tc.overrideSelector with
          | some os => { st1 with overrideSelectors := st1.overrideSelectors ++ [os] }
          | none => st1
        if tc.specClass ∈ registeredClasses then
          getFilteredLoop1 readYaml registeredClasses selector
            { st2 with filtered := insertA st2.filtered tc.name tc } rest
        else getFilteredLoop1 readYaml registeredClasses selector st2 rest
      else getFilteredLoop1 readYaml registeredClasses selector st1 rest

/-- Second loop of `getFilteredTransformers`: drop every surviving
descriptor whose labels match any collected override selector. -/
def getFilteredLoop2 (ovs : List Selector) : List (String × Transformer) →
    List (String × Transformer)
  | [] => []
  | (tn, tc) :: rest =>
    if ovs.any (fun os => os.matches tc.labels) then getFilteredLoop2 ovs rest
    else (tn, tc) :: getFilteredLoop2 ovs rest

/-- Embeds `getFilteredTransformers` (src/unnamed/part_001); the second
component is the list of duplicate-name errors reported. -/
def getFilteredTransformers (readYaml : String → Option RawTransformer)
    (registeredClasses : List String) (transformerPaths : List (String × String))
    (selector : Selector) :
    List (String × Transformer) × List (String × String × String) :=
  ((getFilteredLoop2
      (getFilteredLoop1 readYaml registeredClasses selector
        { filtered := [], overrideSelectors := [], dupErrors := [] } transformerPaths).overrideSelectors
      (getFilteredLoop1 readYaml registeredClasses selector
        { filtered := [], overrideSelectors := [], dupErrors := [] } transformerPaths).filtered),
    (getFilteredLoop1 readYaml registeredClasses selector
      { filtered := [], overrideSelectors := [], dupErrors := [] } transformerPaths).dupErrors)

/-- The descriptors that are loaded, pass the user selector, and have a
registered class — the ones the first loop inserts into the bag. -/
def acceptedConfigs (readYaml : String → Option RawTransformer)
    (registeredClasses : List String) (selector : Selector)
    (paths : List (String × String)) : List Transformer :=
  paths.filterMap (fun tp =>
    match getTransformerConfig readYaml tp.2 with
    | none => none
    | some tc =>
      if selector.matches tc.labels = true ∧ tc.specClass ∈ registeredClasses then some tc
      else none)

/-- The override selectors the first loop collects: those of every loaded
descriptor that passes the user selector — including descriptors whose
class is not registered (the collection happens before the class check). -/
def collectedOverrides (readYaml : String → Option RawTransformer) (selector : Selector)
    (paths : List (String × String)) : List Selector :=
  paths.filterMap (fun tp =>
    match getTransformerConfig readYaml tp.2 with
    | none => none
    | some tc =>
      if selector.matches tc.labels = true then tc.overrideSelector else none)

/-- The last descriptor of a list carrying a given name. -/
def lastWithName : List Transformer → String → Option Transformer
  | [], _ => none
  | tc :: rest, n =>
    match lastWithName rest n with
    | some tc' => some tc'
    | none => if tc.name = n then some tc else none

/-- Embeds `postProcessArtifacts` (src/unnamed/part_001): rewrite the type
of each produced artifact through the transformer's
`produces[type].changeTypeTo` table. -/
def postProcessArtifacts (arts : List Artifact) (t : Transformer) : List Artifact :=
  arts.map (fun a =>
    match lookupA t.producedArtifacts a.type with
    | some p => if p.changeTypeTo ≠ "" then { a with type := p.changeTypeTo } else a
    | none => a)

theorem insertA_map_fst_of_lookup_none {α : Type} :
    ∀ (l : List (String × α)) (k : String) (v : α), lookupA l k = none →
      (insertA l k v).map Prod.fst = l.map Prod.fst ++ [k]
  | [], _, _, _ => rfl
  | (k1, v1) :: rest, k, v, h => by
    by_cases hk : k1 = k
    · simp [lookupA, hk] at h
    · simp only [lookupA, hk, if_false] at h
      simp [insertA, hk, insertA_map_fst_of_lookup_none rest k v h]

theorem insertA_map_fst_of_lookup_some {α : Type} :
    ∀ (l : List (String × α)) (k : String) (v w : α), lookupA l k = some w →
      (insertA l k v).map Prod.fst = l.map Prod.fst
  | [], _, _, _, h => by simp [lookupA] at h
  | (k1, v1) :: rest, k, v, w, h => by
    by_cases hk : k1 = k
    · simp [insertA, hk]
    · simp only [lookupA, hk, if_false] at h
      simp [insertA, hk, insertA_map_fst_of_lookup_some rest k v w h]

theorem getFilteredLoop1_filtered (readYaml : String → Option RawTransformer)
    (registeredClasses : List String) (selector : Selector) :
    ∀ (paths : List (String × String)) (st : FilterState),
      (getFilteredLoop1 readYaml registeredClasses selector st paths).filtered =
        (acceptedConfigs readYaml registeredClasses selector paths).foldl
          (fun acc tc => insertA acc tc.name tc) st.filtered
  | [], _ => rfl
  | (tn, tfilepath) :: rest, st => by
    rcases hload : getTransformerConfig readYaml tfilepath with _ | tc
    · simp only [getFilteredLoop1, hload, acceptedConfigs, List.filterMap_cons]
      rw [getFilteredLoop1_filtered readYaml registeredClasses selector rest st]
      rfl
    · by_cases hsel : selector.matches tc.labels = true
      · by_cases hcls : tc.specClass ∈ registeredClasses
        · simp only [getFilteredLoop1, hload]
          rw [if_pos hsel, if_pos hcls,
            getFilteredLoop1_filtered readYaml registeredClasses selector rest]
          have hacc : acceptedConfigs readYaml registeredClasses selector
              ((tn, tfilepath) :: rest) =
              tc :: acceptedConfigs readYaml registeredClasses selector rest := by
            simp [acceptedConfigs, List.filterMap_cons, hload, hsel, hcls]
          rw [hacc]
          rcases hlk : lookupA st.filtered tc.name with _ | ot <;>
            rcases hos : tc.overrideSelector with _ | os <;> simp [hlk, hos]
        · simp only [getFilteredLoop1, hload]
          rw [if_pos hsel, if_neg hcls,
            getFilteredLoop1_filtered readYaml registeredClasses selector rest]
          have hacc : acceptedConfigs readYaml registeredClasses selector
              ((tn, tfilepath) :: rest) =
              acceptedConfigs readYaml registeredClasses selector rest := by
            simp [acceptedConfigs, List.filterMap_cons, hload, hsel, hcls]
          rw [hacc]
          rcases hlk : lookupA st.filtered tc.name with _ | ot <;>
            rcases hos : tc.overrideSelector with _ | os <;> simp [hlk, hos]
      · simp only [getFilteredLoop1, hload]
        rw [if_neg hsel,
          getFilteredLoop1_filtered readYaml registeredClasses selector rest]
        have hsel' : selector.matches tc.labels = false := by simpa using hsel
        have hacc : acceptedConfigs readYaml registeredClasses selector
            ((tn, tfilepath) :: rest) =
            acceptedConfigs readYaml registeredClasses selector rest := by
          simp [acceptedConfigs, List.filterMap_cons, hload, hsel']
        rw [hacc]
        rcases hlk : lookupA st.filtered tc.name with _ | ot <;> simp [hlk]

theorem getFilteredLoop1_overrides (readYaml : String → Option RawTransformer)
    (registeredClasses : List String) (selector : Selector) :
    ∀ (paths : List (String × String)) (st : FilterState),
      (getFilteredLoop1 readYaml registeredClasses selector st paths).overrideSelectors =
        st.overrideSelectors ++ collectedOverrides readYaml selector paths
  | [], _ => by simp [getFilteredLoop1, collectedOverrides]
  | (tn, tfilepath) :: rest, st => by
    rcases hload : getTransformerConfig readYaml tfilepath with _ | tc
    · simp only [getFilteredLoop1, hload]
      rw [getFilteredLoop1_overrides readYaml registeredClasses selector rest st]
      simp [collectedOverrides, List.filterMap_cons, hload]
    · by_cases hsel : selector.matches tc.labels = true
      · by_cases hcls : tc.specClass ∈ registeredClasses
        · simp only [getFilteredLoop1, hload]
          rw [if_pos hsel, if_pos hcls,
            getFilteredLoop1_overrides readYaml registeredClasses selector rest]
          rcases hlk : lookupA st.filtered tc.name with _ | ot <;>
            rcases hos : tc.overrideSelector with _ | os <;>
              simp [hlk, hos, collectedOverrides, List.filterMap_cons, hload, hsel]
        · simp only [getFilteredLoop1, hload]
          rw [if_pos hsel, if_neg hcls,
            getFilteredLoop1_overrides readYaml registeredClasses selector rest]
          rcases hlk : lookupA st.filtered tc.name with _ | ot <;>
            rcases hos : tc.overrideSelector with _ | os <;>
              simp [hlk, hos, collectedOverrides, List.filterMap_cons, hload, hsel]
      · simp only [getFilteredLoop1, hload]
        rw [if_neg hsel,
          getFilteredLoop1_overrides readYaml registeredClasses selector rest]
        have hsel' : selector.matches tc.labels = false := by simpa using hsel
        rcases hlk : lookupA st.filtered tc.name with _ | ot <;>
          simp [hlk, collectedOverrides, List.filterMap_cons, hload, hsel']

theorem getFilteredLoop1_dups_append (readYaml : String → Option RawTransformer)
    (registeredClasses : List String) (selector : Selector) :
    ∀ (paths : List (String × String)) (st : FilterState),
      ∃ l, (getFilteredLoop1 readYaml registeredClasses selector st paths).dupErrors =
        st.dupErrors ++ l
  | [], st => ⟨[], by simp [getFilteredLoop1]⟩
  | (tn, tfilepath) :: rest, st => by
    rcases hload : getTransformerConfig readYaml tfilepath with _ | tc
    · simp only [getFilteredLoop1, hload]
      exact getFilteredLoop1_dups_append readYaml registeredClasses selector rest st
    · have hstep : ∀ st' : FilterState,
          ∃ l, (getFilteredLoop1 readYaml registeredClasses selector st' rest).dupErrors =
            st'.dupErrors ++ l :=
        fun st' => getFilteredLoop1_dups_append readYaml registeredClasses selector rest st'
      by_cases hsel : selector.matches tc.labels = true
      · by_cases hcls : tc.specClass ∈ registeredClasses
        · simp only [getFilteredLoop1, hload]
          rw [if_pos hsel, if_pos hcls]
          rcases hlk : lookupA st.filtered tc.name with _ | ot <;>
            rcases hos : tc.overrideSelector with _ | os <;>
              · obtain ⟨l, hl⟩ := hstep _
                rw [hl]
                simp
        · simp only [getFilteredLoop1, hload]
          rw [if_pos hsel, if_neg hcls]
          rcases hlk : lookupA st.filtered tc.name with _ | ot <;>
            rcases hos : tc.overrideSelector with _ | os <;>
              · obtain ⟨l, hl⟩ := hstep _
                rw [hl]
                simp
      · simp only [getFilteredLoop1, hload]
        rw [if_neg hsel]
        rcases hlk : lookupA st.filtered tc.name with _ | ot <;>
          · obtain ⟨l, hl⟩ := hstep _
            rw [hl]
            simp

theorem getFilteredLoop1_dups_mono (readYaml : String → Option RawTransformer)
    (registeredClasses : List String) (selector : Selector)
    (paths : List (String × String)) (st : FilterState) (h : st.dupErrors ≠ []) :
    (getFilteredLoop1 readYaml registeredClasses selector st paths).dupErrors ≠ [] := by
  obtain ⟨l, hl⟩ := getFilteredLoop1_dups_append readYaml registeredClasses selector paths st
  rw [hl]
  rcases hd : st.dupErrors with _ | ⟨x, xs⟩
  · exact absurd hd h
  · simp

theorem lookupA_isSome_of_mem_keys {α : Type} :
    ∀ (l : List (String × α)) (k : String), k ∈ l.map Prod.fst → lookupA l k ≠ none
  | [], _, h => by simp at h
  | (k1, v1) :: rest, k, h => by
    by_cases hk : k1 = k
    · simp [lookupA, hk]
    · simp only [List.map_cons, List.mem_cons] at h
      rcases h with h | h
      · exact absurd h.symm hk
      · simp only [lookupA, hk, if_false]
        exact lookupA_isSome_of_mem_keys rest k h

theorem not_mem_keys_of_lookupA_none {α : Type} {l : List (String × α)} {k : String}
    (h : lookupA l k = none) : k ∉ l.map Prod.fst :=
  fun hmem => lookupA_isSome_of_mem_keys l k hmem h

theorem getFilteredLoop1_no_dup_char (readYaml : String → Option RawTransformer)
    (registeredClasses : List String) (selector : Selector) :
    ∀ (paths : List (String × String)) (st : FilterState),
      (st.filtered.map Prod.fst).Nodup →
      (getFilteredLoop1 readYaml registeredClasses selector st paths).dupErrors = [] →
      ((st.filtered.map Prod.fst) ++
        (acceptedConfigs readYaml registeredClasses selector paths).map
          Transformer.name).Nodup
  | [], st, hnd, _ => by simpa [acceptedConfigs] using hnd
  | (tn, tfilepath) :: rest, st, hnd, hdup => by
    rcases hload : getTransformerConfig readYaml tfilepath with _ | tc
    · simp only [getFilteredLoop1, hload] at hdup
      have := getFilteredLoop1_no_dup_char readYaml registeredClasses selector rest st hnd hdup
      simpa [acceptedConfigs, List.filterMap_cons, hload] using this
    · rcases hlk : lookupA st.filtered tc.name with _ | ot
      · by_cases hsel : selector.matches tc.labels = true
        · by_cases hcls : tc.specClass ∈ registeredClasses
          · simp only [getFilteredLoop1, hload] at hdup
            rw [if_pos hsel, if_pos hcls] at hdup
            rw [hlk] at hdup
            have hkeys : ∀ st2 : FilterState, st2.filtered = st.filtered →
                ((insertA st2.filtered tc.name tc).map Prod.fst) =
                  st.filtered.map Prod.fst ++ [tc.name] := by
              intro st2 he
              rw [he]
              exact insertA_map_fst_of_lookup_none st.filtered tc.name tc hlk
            have hnotmem : tc.name ∉ st.filtered.map Prod.fst :=
              not_mem_keys_of_lookupA_none hlk
            rcases hos : tc.overrideSelector with _ | os
            · rw [hos] at hdup
              have hih := getFilteredLoop1_no_dup_char readYaml registeredClasses selector rest
                { filtered := insertA st.filtered tc.name tc
                  overrideSelectors := st.overrideSelectors
                  dupErrors := st.dupErrors }
                (by
                  simp only [insertA_map_fst_of_lookup_none st.filtered tc.name tc hlk]
                  simp [List.nodup_append, hnd, hnotmem])
                hdup
              simp only [insertA_map_fst_of_lookup_none st.filtered tc.name tc hlk] at hih
              have hacc : (acceptedConfigs readYaml registeredClasses selector
                  ((tn, tfilepath) :: rest)).map Transformer.name =
                  tc.name :: (acceptedConfigs readYaml registeredClasses selector rest).map
                    Transformer.name := by
                simp [acceptedConfigs, List.filterMap_cons, hload, hsel, hcls]
              rw [hacc]
              rw [List.append_assoc] at hih
              simpa using hih
            · rw [hos] at hdup
              have hih := getFilteredLoop1_no_dup_char readYaml registeredClasses selector rest
                { filtered := insertA st.filtered tc.name tc
                  overrideSelectors := st.overrideSelectors ++ [os]
                  dupErrors := st.dupErrors }
                (by
                  simp only [insertA_map_fst_of_lookup_none st.filtered tc.name tc hlk]
                  simp [List.nodup_append, hnd, hnotmem])
                hdup
              simp only [insertA_map_fst_of_lookup_none st.filtered tc.name tc hlk] at hih
              have hacc : (acceptedConfigs readYaml registeredClasses selector
                  ((tn, tfilepath) :: rest)).map Transformer.name =
                  tc.name :: (acceptedConfigs readYaml registeredClasses selector rest).map
                    Transformer.name := by
                simp [acceptedConfigs, List.filterMap_cons, hload, hsel, hcls]
              rw [hacc]
              rw [List.append_assoc] at hih
              simpa using hih
          · simp only [getFilteredLoop1, hload] at hdup
            rw [if_pos hsel, if_neg hcls] at hdup
            rw [hlk] at hdup
            have hacc : acceptedConfigs readYaml registeredClasses selector
                ((tn, tfilepath) :: rest) =
                acceptedConfigs readYaml registeredClasses selector rest := by
              simp [acceptedConfigs, List.filterMap_cons, hload, hsel, hcls]
            rw [hacc]
            rcases hos : tc.overrideSelector with _ | os
            · rw [hos] at hdup
              exact getFilteredLoop1_no_dup_char readYaml registeredClasses selector rest st
                hnd hdup
            · rw [hos] at hdup
              exact getFilteredLoop1_no_dup_char readYaml registeredClasses selector rest
                { filtered := st.filtered
                  overrideSelectors := st.overrideSelectors ++ [os]
                  dupErrors := st.dupErrors } hnd hdup
        · simp only [getFilteredLoop1, hload] at hdup
          rw [if_neg hsel] at hdup
          rw [hlk] at hdup
          have hsel' : selector.matches tc.labels = false := by simpa using hsel
          have hacc : acceptedConfigs readYaml registeredClasses selector
              ((tn, tfilepath) :: rest) =
              acceptedConfigs readYaml registeredClasses selector rest := by
            simp [acceptedConfigs, List.filterMap_cons, hload, hsel']
          rw [hacc]
          exact getFilteredLoop1_no_dup_char readYaml registeredClasses selector rest _ hnd hdup
      · exfalso
        simp only [getFilteredLoop1, hload] at hdup
        rw [hlk] at hdup
        by_cases hsel : selector.matches tc.labels = true
        · rw [if_pos hsel] at hdup
          by_cases hcls : tc.specClass ∈ registeredClasses
          · rw [if_pos hcls] at hdup
            rcases hos : tc.overrideSelector with _ | os
            · rw [hos] at hdup
              exact getFilteredLoop1_dups_mono readYaml registeredClasses selector rest _
                (by simp) hdup
            · rw [hos] at hdup
              exact getFilteredLoop1_dups_mono readYaml registeredClasses selector rest _
                (by simp) hdup
          · rw [if_neg hcls] at hdup
            rcases hos : tc.overrideSelector with _ | os
            · rw [hos] at hdup
              exact getFilteredLoop1_dups_mono readYaml registeredClasses selector rest _
                (by simp) hdup
            · rw [hos] at hdup
              exact getFilteredLoop1_dups_mono readYaml registeredClasses selector rest _
                (by simp) hdup
        · rw [if_neg hsel] at hdup
          exact getFilteredLoop1_dups_mono readYaml registeredClasses selector rest _
            (by simp) hdup

theorem lookupA_foldl_insertA :
    ∀ (l : List Transformer) (acc : List (String × Transformer)) (n : String),
      lookupA (l.foldl (fun acc tc => insertA acc tc.name tc) acc) n =
        match lastWithName l n with
        | some tc => some tc
        | none => lookupA acc n
  | [], _, _ => by simp [lastWithName]
  | x :: rest, acc, n => by
    simp only [List.foldl_cons]
    rw [lookupA_foldl_insertA rest (insertA acc x.name x) n]
    simp only [lastWithName]
    rcases hlast : lastWithName rest n with _ | tc'
    · by_cases hx : x.name = n
      · subst hx
        simp [lookupA_insertA_self]
      · simp only [hx, if_false]
        exact lookupA_insertA_ne acc x.name n x hx
    · rfl

theorem insertA_keys_nodup {α : Type} {l : List (String × α)} {k : String} {v : α}
    (hnd : (l.map Prod.fst).Nodup) : ((insertA l k v).map Prod.fst).Nodup := by
  rcases hlk : lookupA l k with _ | w
  · rw [insertA_map_fst_of_lookup_none l k v hlk]
    simp [List.nodup_append, hnd, not_mem_keys_of_lookupA_none hlk]
  · rw [insertA_map_fst_of_lookup_some l k v w hlk]
    exact hnd

theorem foldl_insertA_keys_nodup :
    ∀ (l : List Transformer) (acc : List (String × Transformer)),
      (acc.map Prod.fst).Nodup →
      ((l.foldl (fun acc tc => insertA acc tc.name tc) acc).map Prod.fst).Nodup
  | [], _, h => h
  | x :: rest, acc, h => by
    simp only [List.foldl_cons]
    exact foldl_insertA_keys_nodup rest (insertA acc x.name x) (insertA_keys_nodup h)

theorem getFilteredLoop2_lookupA :
    ∀ (l : List (String × Transformer)) (ovs : List Selector) (n : String),
      ((l.map Prod.fst).Nodup) →
      lookupA (getFilteredLoop2 ovs l) n =
        match lookupA l n with
        | some tc =>
          if ovs.any (fun os => os.matches tc.labels) = true then none else some tc
        | none => none
  | [], _, _, _ => rfl
  | (k1, tc1) :: rest, ovs, n, hnd => by
    simp only [List.map_cons, List.nodup_cons] at hnd
    by_cases hmatch : ovs.any (fun os => os.matches tc1.labels) = true
    · simp only [getFilteredLoop2, hmatch, if_true]
      rw [getFilteredLoop2_lookupA rest ovs n hnd.2]
      by_cases hk : k1 = n
      · subst hk
        have hrest : lookupA rest k1 = none :=
          lookupA_eq_none_of_not_mem_keys rest k1 hnd.1
        simp [lookupA, hrest, hmatch]
      · simp [lookupA, hk]
    · simp only [getFilteredLoop2, hmatch, if_false]
      by_cases hk : k1 = n
      · subst hk
        have hm' : (ovs.any (fun os => os.matches tc1.labels)) = false := by
          simpa using hmatch
        simp [lookupA, hm']
      · simp only [lookupA, hk, if_false]
        exact getFilteredLoop2_lookupA rest ovs n hnd.2

/-- C4 (amended): during registry filtering, any descriptor in the
returned set is the LAST loaded-and-accepted descriptor with its name —
a later duplicate replaces the earlier one (the reported log message says
the earlier file is ignored) — and whenever two accepted descriptors share
a name, a duplicate-name error is reported. -/
theorem getFilteredTransformers_last_wins (readYaml : String → Option RawTransformer)
    (registeredClasses : List String) (transformerPaths : List (String × String))
    (selector : Selector) :
    (∀ n tc,
      lookupA (getFilteredTransformers readYaml registeredClasses transformerPaths
        selector).1 n = some tc →
      lastWithName (acceptedConfigs readYaml registeredClasses selector transformerPaths) n =
        some tc) ∧
    (¬ (((acceptedConfigs readYaml registeredClasses selector transformerPaths).map
        Transformer.name).Nodup) →
      (getFilteredTransformers readYaml registeredClasses transformerPaths selector).2 ≠ []) := by
  have hfil := getFilteredLoop1_filtered readYaml registeredClasses selector transformerPaths
    { filtered := [], overrideSelectors := [], dupErrors := [] }
  have hnd : (((getFilteredLoop1 readYaml registeredClasses selector
      { filtered := [], overrideSelectors := [], dupErrors := [] }
      transformerPaths).filtered).map Prod.fst).Nodup := by
    rw [hfil]
    exact foldl_insertA_keys_nodup _ _ (by simp)
  constructor
  · intro n tc h
    simp only [getFilteredTransformers] at h
    rw [getFilteredLoop2_lookupA _ _ _ hnd] at h
    rw [hfil, lookupA_foldl_insertA] at h
    rcases hlast : lastWithName
        (acceptedConfigs readYaml registeredClasses selector transformerPaths) n with _ | tc'
    · rw [hlast] at h
      simp [lookupA] at h
    · rw [hlast] at h
      dsimp only at h
      by_cases hm : ((getFilteredLoop1 readYaml registeredClasses selector
          { filtered := [], overrideSelectors := [], dupErrors := [] }
          transformerPaths).overrideSelectors).any (fun os => os.matches tc'.labels) = true
      · rw [if_pos hm] at h
        simp at h
      · rw [if_neg hm] at h
        exact h
  · intro hnod
    intro hdup
    simp only [getFilteredTransformers] at hdup
    have := getFilteredLoop1_no_dup_char readYaml registeredClasses selector transformerPaths
      { filtered := [], overrideSelectors := [], dupErrors := [] } (by simp) hdup
    simp only [List.nil_append] at this
    exact hnod this

/-- C5 (amended): a descriptor is in the returned set exactly when it is
the last accepted descriptor with its name and its labels match none of
the collected override selectors — where the selectors are collected from
every loaded descriptor that passes the user label selector, including
descriptors whose class is NOT registered (collection happens before the
class check). -/
theorem getFilteredTransformers_override_filter (readYaml : String → Option RawTransformer)
    (registeredClasses : List String) (transformerPaths : List (String × String))
    (selector : Selector) (n : String) (tc : Transformer) :
    lookupA (getFilteredTransformers readYaml registeredClasses transformerPaths
        selector).1 n = some tc ↔
      (lastWithName (acceptedConfigs readYaml registeredClasses selector transformerPaths) n =
          some tc ∧
        ∀ os ∈ collectedOverrides readYaml selector transformerPaths,
          os.matches tc.labels = false) := by
  have hfil := getFilteredLoop1_filtered readYaml registeredClasses selector transformerPaths
    { filtered := [], overrideSelectors := [], dupErrors := [] }
  have hov := getFilteredLoop1_overrides readYaml registeredClasses selector transformerPaths
    { filtered := [], overrideSelectors := [], dupErrors := [] }
  have hnd : (((getFilteredLoop1 readYaml registeredClasses selector
      { filtered := [], overrideSelectors := [], dupErrors := [] }
      transformerPaths).filtered).map Prod.fst).Nodup := by
    rw [hfil]
    exact foldl_insertA_keys_nodup _ _ (by simp)
  simp only [getFilteredTransformers]
  rw [getFilteredLoop2_lookupA _ _ _ hnd, hfil, lookupA_foldl_insertA, hov]
  simp only [List.nil_append]
  rcases hlast : lastWithName
      (acceptedConfigs readYaml registeredClasses selector transformerPaths) n with _ | tc'
  · constructor
    · intro h
      have h' : (none : Option Transformer) = some tc := h
      exact absurd h' (by simp)
    · rintro ⟨he, _⟩
      exact absurd he (by simp)
  · dsimp only
    by_cases hm : (collectedOverrides readYaml selector transformerPaths).any
        (fun os => os.matches tc'.labels) = true
    · rw [if_pos hm]
      constructor
      · intro h
        exact absurd h (by simp)
      · rintro ⟨he, hall⟩
        rcases List.any_eq_true.mp hm with ⟨os, hos, hosm⟩
        have htc : tc' = tc := by injection he
        rw [htc] at hosm
        rw [hall os hos] at hosm
        exact Bool.noConfusion hosm
    · rw [if_neg hm]
      have hm' : ∀ os ∈ collectedOverrides readYaml selector transformerPaths,
          os.matches tc'.labels = false := by
        intro os hos
        by_contra hne
        exact hm (List.any_eq_true.mpr ⟨os, hos, by simpa using hne⟩)
      constructor
      · intro h
        have htc : tc' = tc := by injection h
        subst htc
        exact ⟨rfl, hm'⟩
      · intro ⟨he, _⟩
        exact he

/-- A descriptor oracle with two files declaring the same transformer
name `X`. -/
def readYamlDup : String → Option RawTransformer := fun p =>
  if p = "p1" then
    some { kind := "Transformer", name := "X", labels := [], specClass := "c",
           overrideParse := .ok none, producedArtifacts := [] }
  else if p = "p2" then
    some { kind := "Transformer", name := "X", labels := [], specClass := "c",
           overrideParse := .ok none, producedArtifacts := [] }
  else none

/-- The descriptor loaded from the later file `p2`. -/
def tcDup2 : Transformer :=
  { name := "X", labels := [("name", "X")], specClass := "c", overrideSelector := none,
    producedArtifacts := [], filePath := "p2" }

/-- C4 (counterexample): with two same-named descriptors, the returned set
holds the descriptor from the LATER file `p2` — the later one replaced the
earlier, so "first wins" is false (the duplicate error even reports the
earlier file as the one ignored). -/
theorem getFilteredTransformers_first_wins_counterexample :
    lookupA (getFilteredTransformers readYamlDup ["c"] [("t1", "p1"), ("t2", "p2")]
        { matchLabels := [] }).1 "X" = some tcDup2 ∧
    tcDup2.filePath = "p2" ∧
    (getFilteredTransformers readYamlDup ["c"] [("t1", "p1"), ("t2", "p2")]
        { matchLabels := [] }).2 = [("X", "p1", "p2")] := by
  decide

/-- C4 (witness): the amended theorem applied to the duplicate-name input:
the surviving descriptor is the last accepted one and a duplicate error is
reported. -/
theorem getFilteredTransformers_last_wins_witness :
    lastWithName (acceptedConfigs readYamlDup ["c"] { matchLabels := [] }
        [("t1", "p1"), ("t2", "p2")]) "X" = some tcDup2 ∧
    (getFilteredTransformers readYamlDup ["c"] [("t1", "p1"), ("t2", "p2")]
        { matchLabels := [] }).2 ≠ [] := by
  have h := getFilteredTransformers_last_wins readYamlDup ["c"] [("t1", "p1"), ("t2", "p2")]
    { matchLabels := [] }
  exact ⟨h.1 "X" tcDup2 (by decide), h.2 (by decide)⟩

/-- A descriptor oracle with an unregistered-class descriptor `XO` carrying
an override selector, a shadowed descriptor `B`, and an unshadowed
descriptor `D`. -/
def readYamlShadow : String → Option RawTransformer := fun p =>
  if p = "px" then
    some { kind := "Transformer", name := "XO", labels := [], specClass := "unreg",
           overrideParse := .ok (some { matchLabels := [("tier", "default")] }),
           producedArtifacts := [] }
  else if p = "pb" then
    some { kind := "Transformer", name := "B", labels := [("tier", "default")],
           specClass := "c", overrideParse := .ok none, producedArtifacts := [] }
  else if p = "pd" then
    some { kind := "Transformer", name := "D", labels := [], specClass := "c",
           overrideParse := .ok none, producedArtifacts := [] }
  else none

/-- The loaded descriptor `B` (shadowed by the unregistered `XO`). -/
def tcShadowB : Transformer :=
  { name := "B", labels := [("tier", "default"), ("name", "B")], specClass := "c",
    overrideSelector := none, producedArtifacts := [], filePath := "pb" }

/-- The loaded descriptor `D` (matching no override selector). -/
def tcShadowD : Transformer :=
  { name := "D", labels := [("name", "D")], specClass := "c",
    overrideSelector := none, producedArtifacts := [], filePath := "pd" }

/-- C5 (counterexample): the only descriptor surviving the label filter
AND the class check is `B`, which carries no override selector — so under
the claim (selectors collected from exactly those survivors) `B` must be
retained; the code drops `B`, because the class-rejected descriptor `XO`
still contributed its override selector. -/
theorem getFilteredTransformers_override_collection_counterexample :
    acceptedConfigs readYamlShadow ["c"] { matchLabels := [] } [("x", "px"), ("b", "pb")] =
      [tcShadowB] ∧
    tcShadowB.overrideSelector = none ∧
    lookupA (getFilteredTransformers readYamlShadow ["c"] [("x", "px"), ("b", "pb")]
        { matchLabels := [] }).1 "B" = none := by
  decide

/-- C5 (witness): the amended theorem applied at a concrete input — a
survivor matching no collected override selector is retained. -/
theorem getFilteredTransformers_override_filter_witness :
    lookupA (getFilteredTransformers readYamlShadow ["c"] [("x", "px"), ("d", "pd")]
        { matchLabels := [] }).1 "D" = some tcShadowD :=
  (getFilteredTransformers_override_filter readYamlShadow ["c"] [("x", "px"), ("d", "pd")]
    { matchLabels := [] } "D" tcShadowD).mpr ⟨by decide, by decide⟩

/-- C8: `postProcessArtifacts` keeps the length and order of its input;
artifact `i` gets type `produces[type].changeTypeTo` whenever that entry
exists with a non-empty `changeTypeTo` and keeps its type otherwise, and
no other field changes. -/
theorem postProcessArtifacts_rewrites_types (arts : List Artifact) (t : Transformer) :
    (postProcessArtifacts arts t).length = arts.length ∧
    ∀ (i : Nat) (a : Artifact), arts[i]? = some a →
      (postProcessArtifacts arts t)[i]? = some
        { a with type :=
            match lookupA t.producedArtifacts a.type with
            | some p => if p.changeTypeTo ≠ "" then p.changeTypeTo else a.type
            | none => a.type } := by
  constructor
  · exact List.length_map arts _
  · intro i a h
    simp only [postProcessArtifacts, List.getElem?_map, h, Option.map_some']
    rcases hkp : lookupA t.producedArtifacts a.type with _ | p
    · simp only [hkp]
    · simp only [hkp]
      by_cases hct : p.changeTypeTo = ""
      · simp [hct]
      · simp [hct]

/-- A transformer declaring `produces: X changeTypeTo Y`. -/
def tcProduces : Transformer :=
  { name := "T", labels := [], specClass := "c", overrideSelector := none,
    producedArtifacts := [("X", { changeTypeTo := "Y" })], filePath := "p" }

/-- Artifacts fed through the produces rewrite. -/
def artsProduces : List Artifact :=
  [{ name := "a1", type := "X", paths := none, configs := none },
   { name := "a2", type := "Z", paths := none, configs := none }]

/-- C8 (witness): an artifact of type `X` is rewritten to `Y` with every
other field intact. -/
theorem postProcessArtifacts_rewrites_types_witness :
    (postProcessArtifacts artsProduces tcProduces)[0]? =
      some { name := "a1", type := "Y", paths := none, configs := none } := by
  have h := (postProcessArtifacts_rewrites_types artsProduces tcProduces).2 0
    { name := "a1", type := "X", paths := none, configs := none } rfl
  exact h.trans (by decide)

/-! ## Starlark sandbox builtins

Embeds the filesystem builtins and the `query` builtin of the Starlark
transformer (src/unnamed/part_000).  The environment's `IsPathValid` check
and the OS/filesystem/XML helpers live outside this repository, so they are
abstract oracles; each builtin returns its Starlark result together with
the trace of filesystem operations it performed. -/

/-- A Starlark value as produced by these builtins. -/
inductive StarValue : Type where
  | none : StarValue
  | bool : Bool → StarValue
  | str : String → StarValue
  | int : Int → StarValue
  | list : List String → StarValue
deriving DecidableEq

/-- The sandbox environment: the per-transformer path validation
`environment.Environment.IsPathValid` (implemented outside this
repository: resolved path must lie under one of the allow-set roots),
modelled as an abstract predicate. -/
structure StarEnv where
  isPathValid : String → Bool

/-- Result of `os.ReadFile`. -/
inductive FileReadResult : Type where
  | ok : String → FileReadResult
  | notExist : FileReadResult
  | otherError : String → FileReadResult
deriving DecidableEq

/-- Result of `os.Stat`: a directory flag, not-exist, or another error. -/
inductive StatResult : Type where
  | ok : Bool → StatResult
  | notExist : StatResult
  | err : String → StatResult
deriving DecidableEq

/-- Oracle for the host filesystem and the external helpers the builtins
call after validation (`os`, `common.GetYamlsWithTypeMeta`,
`common.GetFilesByExt`, xmlquery/xpath). -/
structure StarFS where
  readFileRes : String → FileReadResult
  statRes : String → StatResult
  readDirRes : String → Except String (List String)
  writeOk : String → String → Nat → Bool
  getYamlsRes : String → String → Except String (List String)
  getFilesByExtRes : String → String → Except String (List String)
  openOk : String → Bool
  xmlEvalRes : String → String → Except String (List String)

/-- The Go stdlib path helpers (`filepath.Clean`, `filepath.Base`,
`filepath.Rel`), abstract. -/
structure GoPath where
  clean : String → String
  base : String → String
  rel : String → String → Except String String

/-- One observable filesystem operation performed by a builtin. -/
inductive FSOp : Type where
  | stat : String → FSOp
  | readFile : String → FSOp
  | readDir : String → FSOp
  | openFile : String → FSOp
  | writeFile : String → String → FSOp
  | getYamls : String → FSOp
  | getFilesByExt : String → FSOp
deriving DecidableEq

/-- Embeds `getStarlarkFSExists`: validate, then `os.Stat`. -/
def fsExists (env : StarEnv) (fs : StarFS) (path : String) :
    Except String StarValue × List FSOp :=
  if env.isPathValid path = false then (.error "invalid path", [])
  else
    match fs.statRes path with
    | .notExist => (.ok (.bool false), [.stat path])
    | .err m => (.error m, [.stat path])
    | .ok _ => (.ok (.bool true), [.stat path])

/-- Embeds `getStarlarkFSRead`: validate, then `os.ReadFile`; a missing
file yields `None` with no error. -/
def fsRead (env : StarEnv) (fs : StarFS) (path : String) :
    Except String StarValue × List FSOp :=
  if env.isPathValid path = false then (.error "invalid path", [])
  else
    match fs.readFileRes path with
    | .notExist => (.ok .none, [.readFile path])
    | .otherError e => (.error e, [.readFile path])
    | .ok content => (.ok (.str content), [.readFile path])

/-- Embeds `getStarlarkFSReadDir`: validate, then `os.ReadDir`. -/
def fsReadDir (env : StarEnv) (fs : StarFS) (path : String) :
    Except String StarValue × List FSOp :=
  if env.isPathValid path = false then (.error "invalid path", [])
  else
    match fs.readDirRes path with
    | .error e => (.error e, [.readDir path])
    | .ok names => (.ok (.list names), [.readDir path])

/-- Embeds `getStarlarkFSIsDir`: validate, then `os.Stat`. -/
def fsIsDir (env : StarEnv) (fs : StarFS) (path : String) :
    Except String StarValue × List FSOp :=
  if env.isPathValid path = false then (.error "invalid path", [])
  else
    match fs.statRes path with
    | .ok d => (.ok (.bool d), [.stat path])
    | .notExist => (.error "unable to retrieve file information", [.stat path])
    | .err _ => (.error "unable to retrieve file information", [.stat path])

/-- Embeds `getStarlarkFSWrite`: argument checks, validation, then
`os.WriteFile`; returns the number of bytes written. -/
def fsWrite (env : StarEnv) (fs : StarFS) (filePath data : String) (perm : Nat) :
    Except String StarValue × List FSOp :=
  if filePath = "" then (.error "FilePath is missing in write parameters", [])
  else if env.isPathValid filePath = false then (.error "invalid path", [])
  else if data.length = 0 then (.error "data is missing in write parameters", [])
  else if fs.writeOk filePath data perm then
    (.ok (.int data.length), [.writeFile filePath data])
  else (.error ("could not write to file " ++ filePath), [.writeFile filePath data])

/-- Embeds `getStarlarkFSPathBase`: validate, then
`filepath.Base(filepath.Clean(path))`. -/
def fsPathBase (env : StarEnv) (gp : GoPath) (path : String) :
    Except String StarValue × List FSOp :=
  if env.isPathValid path = false then (.error "invalid path", [])
  else (.ok (.str (gp.base (gp.clean path))), [])

/-- Embeds `getStarlarkFSPathRel`: clean both paths, validate both, then
`filepath.Rel`. -/
def fsPathRel (env : StarEnv) (gp : GoPath) (basePath targetPath : String) :
    Except String StarValue × List FSOp :=
  if env.isPathValid (gp.clean basePath) = false then
    (.error ("the base path " ++ gp.clean basePath ++ " is invalid"), [])
  else if env.isPathValid (gp.clean targetPath) = false then
    (.error ("the target path " ++ gp.clean targetPath ++ " is invalid"), [])
  else
    match gp.rel (gp.clean basePath) (gp.clean targetPath) with
    | .error e => (.error e, [])
    | .ok p3 => (.ok (.str p3), [])

/-- Embeds `getStarlarkFSGetFilesWithPattern`: argument check, validation,
then `common.GetFilesByExt`. -/
def fsGetFilesWithPattern (env : StarEnv) (fs : StarFS) (filePath extension : String) :
    Except String StarValue × List FSOp :=
  if filePath = "" then (.error "FilePath is missing in write parameters", [])
  else if env.isPathValid filePath = false then (.error "invalid path", [])
  else
    match fs.getFilesByExtRes filePath extension with
    | .error _ => (.error "file list for given pattern could not be retrieved",
        [.getFilesByExt filePath])
    | .ok l => (.ok (.list l), [.getFilesByExt filePath])

/-- Embeds `getStarlarkFSGetYamlsWithTypeMeta`: argument check,
validation, then `common.GetYamlsWithTypeMeta`. -/
def fsGetYamlsWithTypeMeta (env : StarEnv) (fs : StarFS) (inputPath kindFilter : String) :
    Except String StarValue × List FSOp :=
  if kindFilter = "" then (.error "kind is missing in find parameters", [])
  else if env.isPathValid inputPath = false then (.error "invalid path", [])
  else
    match fs.getYamlsRes inputPath kindFilter with
    | .error e => (.error e, [.getYamls inputPath])
    | .ok l => (.ok (.list l), [.getYamls inputPath])

/-- Embeds `getStarlarkFindXmlPath`: argument check, validation,
`os.Open`, then XML parsing and XPath evaluation. -/
def fsFindXmlPath (env : StarEnv) (fs : StarFS) (inputXmlFilePath xmlPathExpr : String) :
    Except String StarValue × List FSOp :=
  if xmlPathExpr = "" then (.error "XML path expression is missing in find parameters", [])
  else if env.isPathValid inputXmlFilePath = false then
    (.error ("invalid path: " ++ inputXmlFilePath), [])
  else if fs.openOk inputXmlFilePath = false then
    (.error ("could not read file in path: " ++ inputXmlFilePath),
      [.openFile inputXmlFilePath])
  else
    match fs.xmlEvalRes inputXmlFilePath xmlPathExpr with
    | .error e => (.error e, [.openFile inputXmlFilePath])
    | .ok l => (.ok (.list l), [.openFile inputXmlFilePath])

/-- C1: every filesystem builtin validates its path argument with the
environment's `IsPathValid` before touching the filesystem — a rejected
path yields the source's invalid-path error with an empty operation trace
(for `write`, `get_files_with_pattern`, `get_yamls_with_type_meta` and
`find_xml_path` after their earlier argument-presence checks pass), and a
call can only succeed when every path argument is accepted (for
`path_rel`, the cleaned paths are what the code validates). -/
theorem starlark_fs_sandbox (env : StarEnv) (fs : StarFS) (gp : GoPath)
    (q qb qt data ext kind expr : String) (perm : Nat) :
    (env.isPathValid q = false →
      fsExists env fs q = (.error "invalid path", []) ∧
      fsRead env fs q = (.error "invalid path", []) ∧
      fsReadDir env fs q = (.error "invalid path", []) ∧
      fsIsDir env fs q = (.error "invalid path", []) ∧
      fsPathBase env gp q = (.error "invalid path", []) ∧
      (q ≠ "" → fsWrite env fs q data perm = (.error "invalid path", [])) ∧
      (q ≠ "" → fsGetFilesWithPattern env fs q ext = (.error "invalid path", [])) ∧
      (kind ≠ "" → fsGetYamlsWithTypeMeta env fs q kind = (.error "invalid path", [])) ∧
      (expr ≠ "" → fsFindXmlPath env fs q expr = (.error ("invalid path: " ++ q), []))) ∧
    (env.isPathValid (gp.clean qb) = false →
      fsPathRel env gp qb qt =
        (.error ("the base path " ++ gp.clean qb ++ " is invalid"), [])) ∧
    ((∃ v, (fsExists env fs q).1 = .ok v) → env.isPathValid q = true) ∧
    ((∃ v, (fsRead env fs q).1 = .ok v) → env.isPathValid q = true) ∧
    ((∃ v, (fsReadDir env fs q).1 = .ok v) → env.isPathValid q = true) ∧
    ((∃ v, (fsIsDir env fs q).1 = .ok v) → env.isPathValid q = true) ∧
    ((∃ v, (fsPathBase env gp q).1 = .ok v) → env.isPathValid q = true) ∧
    ((∃ v, (fsWrite env fs q data perm).1 = .ok v) → env.isPathValid q = true) ∧
    ((∃ v, (fsGetFilesWithPattern env fs q ext).1 = .ok v) → env.isPathValid q = true) ∧
    ((∃ v, (fsGetYamlsWithTypeMeta env fs q kind).1 = .ok v) → env.isPathValid q = true) ∧
    ((∃ v, (fsFindXmlPath env fs q expr).1 = .ok v) → env.isPathValid q = true) ∧
    ((∃ v, (fsPathRel env gp qb qt).1 = .ok v) →
      env.isPathValid (gp.clean qb) = true ∧ env.isPathValid (gp.clean qt) = true) := by
  refine ⟨?_, ?_, ?_, ?_, ?_, ?_, ?_, ?_, ?_, ?_, ?_, ?_⟩
  · intro h
    refine ⟨by simp [fsExists, h], by simp [fsRead, h], by simp [fsReadDir, h],
      by simp [fsIsDir, h], by simp [fsPathBase, h], ?_, ?_, ?_, ?_⟩
    · intro hq
      simp [fsWrite, hq, h]
    · intro hq
      simp [fsGetFilesWithPattern, hq, h]
    · intro hk
      simp [fsGetYamlsWithTypeMeta, hk, h]
    · intro he
      simp [fsFindXmlPath, he, h]
  · intro h
    simp [fsPathRel, h]
  · rintro ⟨v, hv⟩
    by_cases h : env.isPathValid q = true
    · exact h
    · have hf : env.isPathValid q = false := by simpa using h
      simp [fsExists, hf] at hv
  · rintro ⟨v, hv⟩
    by_cases h : env.isPathValid q = true
    · exact h
    · have hf : env.isPathValid q = false := by simpa using h
      simp [fsRead, hf] at hv
  · rintro ⟨v, hv⟩
    by_cases h : env.isPathValid q = true
    · exact h
    · have hf : env.isPathValid q = false := by simpa using h
      simp [fsReadDir, hf] at hv
  · rintro ⟨v, hv⟩
    by_cases h : env.isPathValid q = true
    · exact h
    · have hf : env.isPathValid q = false := by simpa using h
      simp [fsIsDir, hf] at hv
  · rintro ⟨v, hv⟩
    by_cases h : env.isPathValid q = true
    · exact h
    · have hf : env.isPathValid q = false := by simpa using h
      simp [fsPathBase, hf] at hv
  · rintro ⟨v, hv⟩
    by_cases h : env.isPathValid q = true
    · exact h
    · have hf : env.isPathValid q = false := by simpa using h
      by_cases hq : q = ""
      · simp [fsWrite, hq] at hv
      · simp [fsWrite, hq, hf] at hv
  · rintro ⟨v, hv⟩
    by_cases h : env.isPathValid q = true
    · exact h
    · have hf : env.isPathValid q = false := by simpa using h
      by_cases hq : q = ""
      · simp [fsGetFilesWithPattern, hq] at hv
      · simp [fsGetFilesWithPattern, hq, hf] at hv
  · rintro ⟨v, hv⟩
    by_cases h : env.isPathValid q = true
    · exact h
    · have hf : env.isPathValid q = false := by simpa using h
      by_cases hk : kind = ""
      · simp [fsGetYamlsWithTypeMeta, hk] at hv
      · simp [fsGetYamlsWithTypeMeta, hk, hf] at hv
  · rintro ⟨v, hv⟩
    by_cases h : env.isPathValid q = true
    · exact h
    · have hf : env.isPathValid q = false := by simpa using h
      by_cases he : expr = ""
      · simp [fsFindXmlPath, he] at hv
      · simp [fsFindXmlPath, he, hf] at hv
  · rintro ⟨v, hv⟩
    by_cases hb : env.isPathValid (gp.clean qb) = true
    · by_cases ht : env.isPathValid (gp.clean qt) = true
      · exact ⟨hb, ht⟩
      · have hf : env.isPathValid (gp.clean qt) = false := by simpa using ht
        simp [fsPathRel, hb, hf] at hv
    · have hf : env.isPathValid (gp.clean qb) = false := by simpa using hb
      simp [fsPathRel, hf] at hv

/-- The sandbox environment rejecting exactly `/etc/passwd`. -/
def envSand : StarEnv := { isPathValid := fun s => !(s == "/etc/passwd") }

/-- A constant filesystem oracle where every file is missing. -/
def fsSand : StarFS :=
  { readFileRes := fun _ => .notExist
    statRes := fun _ => .notExist
    readDirRes := fun _ => .ok []
    writeOk := fun _ _ _ => true
    getYamlsRes := fun _ _ => .ok []
    getFilesByExtRes := fun _ _ => .ok []
    openOk := fun _ => true
    xmlEvalRes := fun _ _ => .ok [] }

/-- Trivial path helpers for the witnesses. -/
def gpSand : GoPath := { clean := id, base := id, rel := fun _ _ => .ok "" }

/-- C1 (witness): a rejected path makes `fs.read` and `fs.write` fail with
`invalid path` and no filesystem operation. -/
theorem starlark_fs_sandbox_witness :
    fsRead envSand fsSand "/etc/passwd" = (.error "invalid path", []) ∧
    fsWrite envSand fsSand "/etc/passwd" "data" 420 = (.error "invalid path", []) := by
  have h := starlark_fs_sandbox envSand fsSand gpSand "/etc/passwd" "b" "t" "data" ".yaml"
    "k" "e" 420
  have hrej := h.1 (by decide)
  exact ⟨hrej.2.1, hrej.2.2.2.2.2.1 (by decide)⟩

/-- C10: after the sandbox validation passes, a missing file makes
`fs.read` return the Starlark `None` with no error; any other read failure
is surfaced as an error; a successful read returns the content. -/
theorem fsRead_not_exist_returns_none (env : StarEnv) (fs : StarFS) (q : String)
    (hval : env.isPathValid q = true) :
    (fs.readFileRes q = .notExist → fsRead env fs q = (.ok .none, [.readFile q])) ∧
    (∀ e, fs.readFileRes q = .otherError e → fsRead env fs q = (.error e, [.readFile q])) ∧
    (∀ c, fs.readFileRes q = .ok c → fsRead env fs q = (.ok (.str c), [.readFile q])) := by
  refine ⟨?_, ?_, ?_⟩
  · intro h
    simp [fsRead, hval, h]
  · intro e h
    simp [fsRead, hval, h]
  · intro c h
    simp [fsRead, hval, h]

/-- C10 (witness): reading a valid but missing path yields `None`. -/
theorem fsRead_not_exist_returns_none_witness :
    fsRead envSand fsSand "/tmp/ok" = (.ok .none, [.readFile "/tmp/ok"]) :=
  (fsRead_not_exist_returns_none envSand fsSand "/tmp/ok" (by decide)).1 rfl

/-- The QA problem (`qatypes.Problem`), restricted to the fields the query
builtin's key handling reads. -/
structure Problem where
  id : String
  type : String
deriving DecidableEq

/-- Modelled from the spec: the QA key delimiter — problem IDs are
dot-delimited key paths (`common.Delim` is defined outside this
repository). -/
def Delim : String := "."

/-- Embeds `common.JoinQASubKeys` (src/common/utils.go): join sub keys
with the delimiter. -/
def joinQASubKeys (xs : List String) : String := String.intercalate Delim xs

/-- Modelled from the spec: the default problem type
(`qatypes.InputSolutionFormType`, type defaults to input). -/
def inputSolutionFormType : String := "input"

/-- A Starlark global as seen by the validation lookup: a function or some
other value. -/
inductive StarGlobal : Type where
  | func : StarGlobal
  | notFunc : StarGlobal
deriving DecidableEq

/-- Embeds the problem handling of `getStarlarkQuery`
(src/unnamed/part_000): empty-id error, root-key prefix normalisation,
type defaulting, validation-function lookup, then the answer fetch
(`qaengine.FetchAnswer` and the answer marshalling are external, abstracted
as `fetchAnswer`). -/
def starlarkQuery (baseKey : String) (globals : List (String × StarGlobal))
    (fetchAnswer : Problem → StarValue) (prob : Problem) (validation : String) :
    Except String StarValue :=
  if prob.id = "" then .error "the key id is missing from the question object"
  else
    let prob1 :=
      if baseKey.isPrefixOf prob.id then prob
      else { prob with id := joinQASubKeys [baseKey, prob.id] }
    let prob2 :=
      if prob1.type = "" then { prob1 with type := inputSolutionFormType } else prob1
    if validation ≠ "" then
      match lookupA globals validation with
      | none => .error ("provided validation function not found : " ++ validation)
      | some .notFunc => .error "is not a function"
      | some .func => .ok (fetchAnswer prob2)
    else .ok (fetchAnswer prob2)

/-- C9: the query builtin errors on an empty problem id; a non-empty id
without the root-key prefix is rewritten to `<root>.<id>` before the
answer is fetched, and an id already carrying the prefix is left
unchanged. -/
theorem starlarkQuery_normalizes_id (baseKey : String)
    (globals : List (String × StarGlobal)) (fetch : Problem → StarValue)
    (prob : Problem) (validation : String) :
    (prob.id = "" → starlarkQuery baseKey globals fetch prob validation =
      .error "the key id is missing from the question object") ∧
    (prob.id ≠ "" → validation = "" → baseKey.isPrefixOf prob.id = false →
      ∃ p', starlarkQuery baseKey globals fetch prob validation = .ok (fetch p') ∧
        p'.id = joinQASubKeys [baseKey, prob.id]) ∧
    (prob.id ≠ "" → validation = "" → baseKey.isPrefixOf prob.id = true →
      ∃ p', starlarkQuery baseKey globals fetch prob validation = .ok (fetch p') ∧
        p'.id = prob.id) := by
  refine ⟨?_, ?_, ?_⟩
  · intro h
    simp [starlarkQuery, h]
  · intro hid hval hpre
    by_cases ht : prob.type = ""
    · refine ⟨{ id := joinQASubKeys [baseKey, prob.id], type := inputSolutionFormType },
        ?_, rfl⟩
      simp [starlarkQuery, hid, hval, hpre, ht]
    · refine ⟨{ id := joinQASubKeys [baseKey, prob.id], type := prob.type }, ?_, rfl⟩
      simp [starlarkQuery, hid, hval, hpre, ht]
  · intro hid hval hpre
    by_cases ht : prob.type = ""
    · refine ⟨{ id := prob.id, type := inputSolutionFormType }, ?_, rfl⟩
      simp [starlarkQuery, hid, hval, hpre, ht]
    · refine ⟨{ id := prob.id, type := prob.type }, ?_, rfl⟩
      simp [starlarkQuery, hid, hval, hpre, ht]

/-- C9 (witness): a problem with id `b` and no root prefix is fetched
under `move2kube.b`. -/
theorem starlarkQuery_normalizes_id_witness :
    ∃ p' : Problem, starlarkQuery "move2kube" [] (fun p => StarValue.str p.id)
        { id := "b", type := "" } "" = .ok (StarValue.str p'.id) ∧
      p'.id = joinQASubKeys ["move2kube", "b"] :=
  (starlarkQuery_normalizes_id "move2kube" [] (fun p => StarValue.str p.id)
    { id := "b", type := "" } "").2.1 (by decide) rfl (by decide)

end Move2Kube
